import Mathlib

/-! StreamVault (`script.js`): navigation and catalog state

A shallow embedding of the client-side state layer of `script.js`.

* The global `state` object becomes the record `State`, passed explicitly.
* Every handler is a function `State → … → State`.
* The side effects the handlers have outside `state` are kept as append-only
  fields of the record: the `window.history.pushState` calls (`pushed`), the
  `alert` calls (`alerts`), the write requests sent to the remote gateway
  (`remote`) and the cards last rendered into `#videoGrid`, `#relatedVideos`
  and `#favGrid`. `videoGridDelete` tells whether the cards of `#videoGrid`
  carry the delete control (the value `state.isAdmin` had when `createCard`
  built them), `favEmpty` whether the `#favEmpty` marker is displayed.
* A remote call is a suspension point: the part of a handler that runs after
  the gateway answered is a function of its own that takes the answer as an
  argument.

Conventions.  Identifiers, page names and titles are `String`s (sequences of
code points, so without lone surrogates).  JavaScript numbers are `Int`/`Nat` (the counters stay far below `2^53`).  The object
`state.likes` is represented by the list of its own keys: the program only ever
writes `state.likes[id] = true` and `delete state.likes[id]`, so every own
property holds `true`.  It is a plain object, so a read `state.likes[id]` that
finds no own key falls through to `Object.prototype` (`likesGet`).
-/

namespace StreamVault

/-! ## Data model -/

/-- The kinds of value the program stores in a video's `likes` field:
`state.likes[v.id] || 0` (line 133) yields `true`, `0` or, for an id that names
a member of `Object.prototype`, that inherited member (`object name`); `++` and
`--` yield numbers, `NaN` included. -/
inductive JsVal where
  | bool (b : Bool)
  | num (n : Int)
  | nan
  | object (name : String)
  deriving DecidableEq, Repr

/-- ECMAScript `ToNumber` on these values (`true ↦ 1`, `false ↦ 0`); `none`
stands for `NaN`, which is what a function or a plain object converts to. -/
def JsVal.toNumber : JsVal → Option Int
  | .bool true => some 1
  | .bool false => some 0
  | .num n => some n
  | .nan => none
  | .object _ => none

/-- JavaScript truthiness of these values. -/
def JsVal.truthy : JsVal → Bool
  | .bool b => b
  | .num n => n != 0
  | .nan => false
  | .object _ => true

/-- The string-keyed members of `Object.prototype` (ECMAScript 20.1.3 and
Annex B.2.2). -/
def objectPrototypeKeys : List String :=
  ["constructor", "__defineGetter__", "__defineSetter__", "hasOwnProperty",
    "__lookupGetter__", "__lookupSetter__", "isPrototypeOf", "propertyIsEnumerable",
    "toString", "valueOf", "__proto__", "toLocaleString"]

/-- The text `String(v)` of the inherited member `name`: `Object.prototype`
itself for `__proto__`, a built-in function otherwise (`Object` for
`constructor`), printed in the native-function form. -/
def objectText (name : String) : String :=
  if name = "__proto__" then "[object Object]"
  else if name = "constructor" then "function Object() \x7b [native code] \x7d"
  else "function " ++ name ++ "() \x7b [native code] \x7d"

/-- The text `String(v)`. -/
def JsVal.toText : JsVal → String
  | .bool true => "true"
  | .bool false => "false"
  | .num k => toString k
  | .nan => "NaN"
  | .object name => objectText name

/-- The read `likes[id]` on the plain object with own keys `likes`: the stored
`true` for an own key, the inherited member for a name of `Object.prototype`,
`undefined` (`none`) otherwise. -/
def likesGet (likes : List String) (id : String) : Option JsVal :=
  if id ∈ likes then some (JsVal.bool true)
  else if id ∈ objectPrototypeKeys then some (JsVal.object id)
  else none

/-- An entry of `state.videos` (lines 125-134 and 603-611). -/
structure Video where
  id : String
  title : String
  src : String
  thumbnail : Option String
  duration : String
  views : Nat
  date : String
  likes : JsVal
  deriving DecidableEq, Repr

/-- The object stored in `state.user` (lines 1122-1126). -/
structure User where
  id : String
  username : String
  email : String
  deriving DecidableEq, Repr

/-- The third argument of `pushState`: `window.location.pathname` or a relative
query such as `?page=favorites`. -/
inductive Url where
  | pathname
  | relative (s : String)
  deriving DecidableEq, Repr

/-- The first argument of `pushState`: `{ page: name }` or `{ v: id }`. -/
inductive PushedState where
  | page (name : String)
  | v (id : String)
  deriving DecidableEq, Repr

/-- One call `window.history.pushState(state, '', url)`. -/
structure HistoryEntry where
  state : PushedState
  url : Url
  deriving DecidableEq, Repr

/-- The write requests the program sends to the gateway. Read queries change
nothing remote and are not recorded. -/
inductive RemoteCall where
  | historyInsert (user_id video_id : String)
  | adminLogInsert (admin_id action_type description : String)
  | videoDelete (id : String)
  deriving DecidableEq, Repr

/-- The global `state` (lines 52-63) together with the effect logs. -/
structure State where
  videos : List Video
  favorites : List String
  likes : List String
  user : Option User
  isAdmin : Bool
  currentPage : String
  watchingId : Option String
  pushed : List HistoryEntry
  alerts : List String
  remote : List RemoteCall
  videoGrid : List Video
  relatedVideos : List Video
  videoGridDelete : Bool
  favGrid : List Video
  favEmpty : Bool
  deriving DecidableEq, Repr

/-- The parameters `page` and `v` as `URLSearchParams.get` returns them
(`null` when the parameter is absent). -/
structure Query where
  page : Option String
  v : Option String
  deriving DecidableEq, Repr

/-- A row of the `history` table as selected by `renderHistory`; `watched_at`
is an instant on a linear time scale. -/
structure HistoryRow where
  video_id : String
  watched_at : Nat
  deriving DecidableEq, Repr

/-! ## Helpers -/

/-- JavaScript truthiness of a value that is `null` or a string, as in
`if (!id)`, `if (pV)` and `state.watchingId &&`. -/
def truthy : Option String → Bool
  | none => false
  | some s => s != ""

/-- The expression `x || d` for `x` a string or `null`. -/
def orElse (x : Option String) (d : String) : String :=
  match x with
  | some s => if s != "" then s else d
  | none => d

/-- Source `isFav` (line 85). -/
def isFav (st : State) (id : String) : Bool := decide (id ∈ st.favorites)

/-- Source `isLiked` (line 86): `!!state.likes[id]`. -/
def isLiked (st : State) (id : String) : Bool :=
  match likesGet st.likes id with
  | some v => v.truthy
  | none => false

/-- The value of `state.likes[id] ?? fallback`: what the read yields unless that
is `undefined`, and `fallback` then. -/
def likesOr (st : State) (id : String) (fallback : JsVal) : JsVal :=
  match likesGet st.likes id with
  | some v => v
  | none => fallback

/-- Source `fmtLikes` (lines 80-83). The argument is compared after `ToNumber`;
`fixedK n` stands for the floating-point expression
`(n / 1_000).toFixed(1).replace(/\.0$/, '') + 'K'`. -/
def fmtLikes (fixedK : Int → String) (n : JsVal) : String :=
  match n.toNumber with
  | some k => if k ≥ 1000 then fixedK k else n.toText
  | none => n.toText

/-- The expression `state.videos.find(x => x.id === id)`. -/
def findVideo (videos : List Video) (id : String) : Option Video :=
  videos.find? (fun x => x.id == id)

/-- In-place mutation of the object returned by `find`: the first video whose
id is `id` is replaced by its image under `f`. -/
def mutateFirst (id : String) (f : Video → Video) : List Video → List Video
  | [] => []
  | x :: xs => if x.id = id then f x :: xs else x :: mutateFirst id f xs

/-- The number `ToNumber(x) + d`, `NaN` when `x` converts to `NaN`. -/
def JsVal.add (x : JsVal) (d : Int) : JsVal :=
  match x.toNumber with
  | some n => JsVal.num (n + d)
  | none => JsVal.nan

/-- The statement `v.likes++` (line 180). -/
def incLikes (v : Video) : Video := { v with likes := v.likes.add 1 }

/-- The statement `v.likes--` (line 177). -/
def decLikes (v : Video) : Video := { v with likes := v.likes.add (-1) }

/-- The statement `v.views++` (line 461). -/
def incViews (v : Video) : Video := { v with views := v.views + 1 }

/-- The assignment `state.likes[id] = true`: a new own key, except that the
inherited `__proto__` setter swallows the assignment of a primitive. -/
def likesSet (likes : List String) (id : String) : List String :=
  if id ∈ likes then likes
  else if id = "__proto__" then likes
  else likes ++ [id]

/-- The statement `delete state.likes[id]`. -/
def likesDelete (likes : List String) (id : String) : List String :=
  likes.filter (fun k => k != id)

/-- The call `window.history.pushState(s, '', url)`. -/
def pushState (st : State) (s : PushedState) (url : Url) : State :=
  { st with pushed := st.pushed ++ [⟨s, url⟩] }

/-- The URL that encodes a page: the bare path for home, `?page=<name>`
otherwise (lines 252 and 496). -/
def pageUrl (name : String) : Url :=
  if name = "home" then Url.pathname else Url.relative ("?page=" ++ name)

/-! ## Watch overlay and navigation -/

/-- Source `closeWatch` (lines 489-498). -/
def closeWatch (st : State) (push : Bool) : State :=
  let st := { st with watchingId := none }
  if push then pushState st (PushedState.page st.currentPage) (pageUrl st.currentPage)
  else st

/-- Source `renderGrid` (lines 261-272) for the container `#videoGrid`:
`createCard` adds the delete control to every card when `state.isAdmin` holds
(line 285). -/
def renderVideoGrid (st : State) (videos : List Video) : State :=
  { st with videoGrid := videos, videoGridDelete := st.isAdmin }

/-- Source `renderFavorites` (lines 354-380) up to its suspension point: signed
out, the marker is displayed and the grid emptied; signed in, the query is
sent and nothing is drawn yet. -/
def renderFavorites (st : State) : State :=
  if st.user = none then { st with favEmpty := true, favGrid := [] } else st

/-- Source `showPage` (lines 228-255). The renderers of the history, admin-log
and dashboard pages only send read queries and fill containers that are not
tracked here. -/
def showPage (st : State) (name : String) (push : Bool) : State :=
  let st := { st with currentPage := name }
  let st := if name ≠ "watch" ∧ truthy st.watchingId = true then closeWatch st false else st
  let st := if name = "home" then renderVideoGrid st st.videos else st
  let st := if name = "favorites" then renderFavorites st else st
  if push then pushState st (PushedState.page name) (pageUrl name) else st

/-- Source `addToHistory` (lines 437-449), up to its suspension point. -/
def addToHistory (st : State) (id : String) : State :=
  match st.user with
  | none => st
  | some u => { st with remote := st.remote ++ [RemoteCall.historyInsert u.id id] }

/-- The list `others` of `renderRelated` (line 503). -/
def others (videos : List Video) (currentId : String) : List Video :=
  videos.filter (fun v => v.id != currentId)

/-- Source `renderRelated` (lines 500-522). -/
def renderRelated (st : State) (currentId : String) : State :=
  { st with relatedVideos := others st.videos currentId }

/-- Source `openWatch` (lines 453-487). -/
def openWatch (st : State) (id : String) (push : Bool) : State :=
  match findVideo st.videos id with
  | none => st
  | some _ =>
    let st := { st with watchingId := some id }
    let st := addToHistory st id
    let st := { st with videos := mutateFirst id incViews st.videos }
    let st := renderRelated st id
    let st := showPage st "watch" false
    if push then pushState st (PushedState.v id) (Url.relative ("?v=" ++ id)) else st

/-- The `popstate` listener installed by `init` (lines 100-110). -/
def onPopState (st : State) (q : Query) : State :=
  let pPage := orElse q.page "home"
  match q.v with
  | some pV => if pV != "" then openWatch st pV false else showPage st pPage false
  | none => showPage st pPage false

/-! ## Likes -/

/-- The click listener of `#likeBtn` (lines 169-187). -/
def likeClick (st : State) : State :=
  match st.watchingId with
  | none => st
  | some id =>
    if id = "" then st
    else
      match findVideo st.videos id with
      | none => st
      | some _ =>
        if isLiked st id = true then
          { st with
            likes := likesDelete st.likes id
            videos := mutateFirst id decLikes st.videos }
        else
          { st with
            likes := likesSet st.likes id
            videos := mutateFirst id incLikes st.videos }

/-- The text `likeClick` writes into `#likeCount` (line 184): `fmtLikes(v.likes)`
for the video found in the state after the update. -/
def likeCountAfterClick (fixedK : Int → String) (st : State) (id : String) : Option String :=
  (findVideo (likeClick st).videos id).map (fun v => fmtLikes fixedK v.likes)

/-- The like count `createCard` puts on a card (lines 279 and 303). -/
def createCardLikes (fixedK : Int → String) (st : State) (v : Video) : String :=
  fmtLikes fixedK (likesOr st v.id v.likes)

/-- The like count `refreshCard` writes on the cards of `id` (lines 526-534). -/
def refreshCardLikes (fixedK : Int → String) (st : State) (id : String) : Option String :=
  (findVideo st.videos id).map (fun v => fmtLikes fixedK (likesOr st id v.likes))

/-- The like count `openWatch` writes into `#likeCount` (line 474). -/
def openWatchLikes (fixedK : Int → String) (st : State) (id : String) : Option String :=
  (findVideo st.videos id).map (fun v => fmtLikes fixedK (likesOr st v.id v.likes))

/-! ## Search -/

/-- The code points `String.prototype.trim` strips: ECMAScript `WhiteSpace` and
`LineTerminator`. -/
def isJsSpace (c : Char) : Bool :=
  let n := c.toNat
  (0x09 ≤ n && n ≤ 0x0D) || n == 0x20 || n == 0xA0 || n == 0x1680 ||
  (0x2000 ≤ n && n ≤ 0x200A) || n == 0x2028 || n == 0x2029 || n == 0x202F ||
  n == 0x205F || n == 0x3000 || n == 0xFEFF

/-- The method `String.prototype.trim`. -/
def jsTrim (s : String) : String :=
  ⟨((s.data.dropWhile isJsSpace).reverse.dropWhile isJsSpace).reverse⟩

/-- The method `String.prototype.includes`: `q` occurs in `t` as a contiguous
substring. -/
def includes (t q : String) : Bool := decide (q.data <:+: t.data)

/-- The list `filtered` of the search listener (lines 567-570). `toLowerCase`
stands for the built-in `String.prototype.toLowerCase`. -/
def searchFiltered (toLowerCase : String → String) (videos : List Video) (value : String) :
    List Video :=
  let q := toLowerCase (jsTrim value)
  if q != "" then videos.filter (fun v => includes (toLowerCase v.title) q) else videos

/-- The `input` listener of the search box (lines 566-577). -/
def searchInput (toLowerCase : String → String) (st : State) (value : String) : State :=
  let filtered := searchFiltered toLowerCase st.videos value
  let st := if st.currentPage ≠ "home" then showPage st "home" true else st
  renderVideoGrid st filtered

/-- The function `toLowerCase` restricted to ASCII text, where it lowers the
letters `A`-`Z` and keeps every other character. -/
def asciiLower (s : String) : String := ⟨s.data.map Char.toLower⟩

/-! ## Favorites and history views -/

/-- The list `favs` of `renderFavorites` (lines 370-371) for the ids the
gateway returned. -/
def favoritesView (videos : List Video) (favVideoIds : List String) : List Video :=
  videos.filter (fun v => decide (v.id ∈ favVideoIds))

/-- The expression `[...new Set(xs)]`: the distinct elements in order of first
occurrence. -/
def newSet (xs : List String) : List String :=
  xs.foldl (fun acc x => if x ∈ acc then acc else acc ++ [x]) []

/-- The list `uniqueHistoryIds` of `renderHistory` (line 402). -/
def uniqueHistoryIds (history : List HistoryRow) : List String :=
  newSet (history.map (fun h => h.video_id))

/-- The list `hist` of `renderHistory` (lines 404-406) for the rows the gateway
returned. -/
def historyView (videos : List Video) (history : List HistoryRow) : List Video :=
  (uniqueHistoryIds history).filterMap (fun id => findVideo videos id)

/-- The most recent `watched_at` among the rows of video `id` (`0` when there is
none). -/
def lastWatched (history : List HistoryRow) (id : String) : Nat :=
  ((history.filter (fun h => h.video_id == id)).map (fun h => h.watched_at)).foldr max 0

/-! ## Admin: delete -/

/-- Source `logAdminAction` (lines 642-661), up to its suspension point. -/
def logAdminAction (st : State) (type description : String) : State :=
  match st.user with
  | none => st
  | some u =>
    if st.isAdmin = true then
      { st with remote := st.remote ++ [RemoteCall.adminLogInsert u.id type description] }
    else st

/-- The click listener of a card (lines 314-347), up to the point where the
delete request is sent. `onDelete` tells whether the click hit the delete
control, `confirmed` is the answer to `confirm`. -/
def cardClick (st : State) (v : Video) (onDelete confirmed : Bool) : State :=
  if onDelete then
    if confirmed then { st with remote := st.remote ++ [RemoteCall.videoDelete v.id] } else st
  else openWatch st v.id true

/-- The continuation of the delete request (lines 323-342). `error` is `null` or
the message of the error the gateway returned. -/
def deleteThen (st : State) (v : Video) (error : Option String) : State :=
  match error with
  | some message =>
    { st with alerts := st.alerts ++ ["Failed to delete the video: " ++ message] }
  | none =>
    let st := { st with videos := st.videos.filter (fun vid => vid.id != v.id) }
    let st := logAdminAction st "delete" ("Deleted video: " ++ v.title)
    let st := showPage st st.currentPage true
    if st.watchingId = some v.id then closeWatch st true else st

/-- A click on a card of `#videoGrid`: the delete control can only be hit when
the card carries one. `atDelete` tells whether the click lands where the
control sits. -/
def gridCardClick (st : State) (v : Video) (atDelete confirmed : Bool) : State :=
  cardClick st v (atDelete && st.videoGridDelete) confirmed

/-! ## Session -/

/-- The outcome of an awaited gateway expression: the value it resolves to, or
the exception raised (a rejected promise, or an error thrown while the
expression is evaluated). -/
inductive Awaited (α : Type) where
  | fulfilled (value : α)
  | thrown (message : String)
  deriving DecidableEq, Repr

/-- The `user` object of a session: `id`, `email` and
`user_metadata?.username` (a string or `undefined`). -/
structure SessionUser where
  id : String
  email : String
  metaUsername : Option String
  deriving DecidableEq, Repr

/-- A session object; `user` may be `null`. -/
structure Session where
  user : Option SessionUser
  deriving DecidableEq, Repr

/-- The object `auth.getSession()` resolves to: `data` is `null` or an object
whose `session` is `null` or a session; `error` is `null` or carries a
message. -/
structure SessionAnswer where
  data : Option (Option Session)
  error : Option String
  deriving DecidableEq, Repr

/-- A row of the `profiles` table. -/
structure Profile where
  id : String
  username : String
  is_admin : Bool
  deriving DecidableEq, Repr

/-- The object the profile query resolves to. -/
structure ProfileAnswer where
  data : Option Profile
  error : Option String
  deriving DecidableEq, Repr

/-- The two assignments `state.user = null; state.isAdmin = false`. -/
def signedOut (st : State) : State := { st with user := none, isAdmin := false }

/-- The call `alert(message)`. -/
def alert (st : State) (message : String) : State :=
  { st with alerts := st.alerts ++ [message] }

/-- The expression `email.split('@')[0]`: the text before the first `@`. -/
def localPart (email : String) : String := ⟨email.data.takeWhile (fun c => c != '@')⟩

/-- The method `String.prototype.startsWith`. -/
def startsWith (s p : String) : Bool := p.data.isPrefixOf s.data

/-- Source `checkUserSession` (lines 1107-1150) for the outcomes of its two
awaited expressions. The destructuring `{ data: { session }, error }` throws
when `data` is `null`; every exception ends in the `catch` block. -/
def checkUserSession (st : State) (session : Awaited SessionAnswer)
    (profile : Awaited ProfileAnswer) : State :=
  match session with
  | .thrown _ => signedOut st
  | .fulfilled answer =>
    match answer.data with
    | none => signedOut st
    | some sess =>
      if answer.error.isSome = true then signedOut st
      else
        match sess with
        | some ⟨some u⟩ =>
          match profile with
          | .thrown _ => signedOut st
          | .fulfilled p =>
            match p.data with
            | some row =>
              { st with user := some ⟨row.id, row.username, u.email⟩, isAdmin := row.is_admin }
            | none =>
              { st with
                user := some ⟨u.id, orElse u.metaUsername (localPart u.email), u.email⟩
                isAdmin := false }
        | _ => signedOut st

/-- The callback of `signOut` (lines 1090-1099). -/
def signOutThen (st : State) : State :=
  let st := signedOut st
  if st.currentPage = "upload" ∨ st.currentPage = "admin-logs" then showPage st "home" true
  else st

/-- The listener passed to `onAuthStateChange` (lines 158-166). -/
def onAuthStateChange (st : State) (event : String) (session : Awaited SessionAnswer)
    (profile : Awaited ProfileAnswer) : State :=
  if event = "SIGNED_OUT" then signedOut st
  else if event = "SIGNED_IN" ∨ event = "TOKEN_REFRESHED" then
    checkUserSession st session profile
  else st

/-- The `user` object of a sign-up answer. -/
structure SignUpUser where
  id : String
  deriving DecidableEq, Repr

/-- The `data` object of a sign-up answer; `user` may be `null`. -/
structure SignUpData where
  user : Option SignUpUser
  deriving DecidableEq, Repr

/-- The object `auth.signUp(..)` resolves to. -/
structure SignUpAnswer where
  data : Option SignUpData
  error : Option String
  deriving DecidableEq, Repr

/-- The `submit` listener of the registration form (lines 933-980) for the
outcome of `auth.signUp`. `emailValue` is the content of `#regEmail`. -/
def registerSubmit (toLowerCase : String → String) (st : State) (emailValue : String)
    (answer : Awaited SignUpAnswer) : State :=
  let email := jsTrim emailValue
  let username := localPart email
  match answer with
  | .thrown message => alert st message
  | .fulfilled a =>
    match a.error with
    | some message => alert st message
    | none =>
      match a.data with
      | none => alert st "Cannot read properties of null (reading 'user')"
      | some d =>
        match d.user with
        | some u =>
          alert
            { st with
              user := some ⟨u.id, username, email⟩
              isAdmin := startsWith (toLowerCase username) "admin" }
            "Account created successfully!"
        | none => st

/-! ## Favorites page -/

/-- A row of the `favorites` table as selected by `renderFavorites`. -/
structure FavoriteRow where
  video_id : String
  deriving DecidableEq, Repr

/-- The object the favorites query resolves to. -/
structure FavoritesAnswer where
  data : Option (List FavoriteRow)
  error : Option String
  deriving DecidableEq, Repr

/-- Source `renderFavorites` (lines 362-379) after its suspension point, reached
only when a user is signed in. An error, or `data: null`, ends in the `catch`
block, which draws nothing. -/
def renderFavoritesThen (st : State) (answer : Awaited FavoritesAnswer) : State :=
  match answer with
  | .thrown _ => st
  | .fulfilled a =>
    if a.error.isSome = true then st
    else
      match a.data with
      | none => st
      | some favorites =>
        let favVideoIds := favorites.map (fun f => f.video_id)
        let favs := favoritesView st.videos favVideoIds
        { st with favGrid := favs, favEmpty := favs.isEmpty, favorites := favVideoIds }

/-! ## Upload -/

/-- The `click` listener of `#submitUpload` (lines 597-635). `titleValue` is the
content of `#uploadTitle`, `file` the name of the selected file if there is
one, `objectUrl` the result of `URL.createObjectURL(file)` and `now` the value
of `Date.now()`. -/
def uploadSubmit (st : State) (titleValue : String) (file : Option String)
    (objectUrl : String) (now : Nat) : State :=
  let title := jsTrim titleValue
  if title = "" ∨ file = none then alert st "Please select a file and enter a title."
  else
    let newVideo : Video :=
      { id := "u" ++ toString now, title := title, src := objectUrl, thumbnail := none,
        duration := "??:??", views := 0, date := "just now", likes := JsVal.num 0 }
    let st := { st with videos := newVideo :: st.videos }
    let st :=
      if st.isAdmin = true then logAdminAction st "upload" ("Uploaded video: " ++ title) else st
    let st := showPage st "home" true
    if title ≠ "silent_thumbnail_upload" then
      alert st ("\"" ++ title ++ "\" uploaded successfully!")
    else st

/-! ## The stub gateway -/

/-- The values met when the program talks to the object `makeNoop()` returns
(lines 17-36): the proxy, the object served for `auth`, the async function
`noopAsync`, the arrow function served for `onAuthStateChange`, the promise
`noopAsync` returns, the methods of that promise, the subscription object and
`undefined`. -/
inductive StubVal where
  | proxy
  | auth
  | noopAsync
  | subscribe
  | promise
  | promiseMethod
  | subscription
  | undefined
  deriving DecidableEq, Repr

deriving instance DecidableEq for Except

/-- The message of the error every `noopAsync` result carries (line 19). -/
def stubMessage : String := "Supabase SDK not loaded"

/-- The object a `noopAsync` promise resolves to:
`{ data: null, error: new Error(..), count: 0 }`. -/
structure StubResult where
  data : Option Unit
  error : Option String
  count : Nat
  deriving DecidableEq, Repr

/-- The value of line 19. -/
def noopResult : StubResult := { data := none, error := some stubMessage, count := 0 }

/-- The keys of the object literal served for `auth` that hold `noopAsync`
(lines 24-29). -/
def stubAuthMethods : List String :=
  ["getSession", "signInWithPassword", "signUp", "signOut", "updateUser",
    "resetPasswordForEmail"]

/-- Property read `v[name]`. The `get` trap of the proxy (lines 21-34) serves
the `auth` object for `auth` and `noopAsync` for every other name; reading a
property of `undefined` throws. Functions and the subscription object carry
none of the names the chains of the program use. -/
def StubVal.get (v : StubVal) (name : String) : Except String StubVal :=
  match v with
  | .proxy => if name = "auth" then .ok .auth else .ok .noopAsync
  | .auth =>
    if name ∈ stubAuthMethods then .ok .noopAsync
    else if name = "onAuthStateChange" then .ok .subscribe
    else .ok .undefined
  | .promise =>
    if name = "then" ∨ name = "catch" ∨ name = "finally" then .ok .promiseMethod
    else .ok .undefined
  | .undefined => .error ("TypeError: cannot read " ++ name ++ " of undefined")
  | _ => .ok .undefined

/-- Call `f(..)` of a value obtained as property `name`: the functions return
their result, anything else is not callable. -/
def StubVal.apply (f : StubVal) (name : String) : Except String StubVal :=
  match f with
  | .noopAsync => .ok .promise
  | .subscribe => .ok .subscription
  | .promiseMethod => .ok .promise
  | _ => .error ("TypeError: " ++ name ++ " is not a function")

/-- One link of a chain such as `supabase.auth.getSession()` or
`supabase.from(t).select(..)`: a property read or a method call. -/
inductive Step where
  | prop (name : String)
  | call (name : String)
  deriving DecidableEq, Repr

/-- Evaluation of one link on a value. -/
def evalStep (v : StubVal) : Step → Except String StubVal
  | .prop name => v.get name
  | .call name =>
    match v.get name with
    | .ok f => f.apply name
    | .error e => .error e

/-- Evaluation of a chain, link by link, from left to right; the first exception
ends it. -/
def evalChain (v : StubVal) : List Step → Except String StubVal
  | [] => .ok v
  | step :: rest =>
    match evalStep v step with
    | .ok w => evalChain w rest
    | .error e => .error e

/-- The table chains the program sends (lines 117-120, 363-366, 393-397, 443-445,
319-322, 1115-1119, 646-652). -/
def tableChains : List (List Step) :=
  [[.call "from", .call "select", .call "order"],
    [.call "from", .call "select", .call "eq"],
    [.call "from", .call "select", .call "eq", .call "order"],
    [.call "from", .call "insert"],
    [.call "from", .call "delete", .call "eq"],
    [.call "from", .call "select", .call "eq", .call "single"]]

/-- The outcome of `await` on a chain over the stub, inside a `try` block that
destructures the result: the promise of `noopAsync` resolves to `resolved` (the
typed view of `noopResult`); an exception raised by the chain is thrown; any
other value has no `data` to read from, which throws as well. -/
def stubAwait {α : Type} (resolved : α) (steps : List Step) : Awaited α :=
  match evalChain StubVal.proxy steps with
  | .ok .promise => .fulfilled resolved
  | .ok _ => .thrown "TypeError"
  | .error e => .thrown e

/-! ## Start-up -/

/-- A row of the `videos` table as read by the mapping of `init`. -/
structure VideoRow where
  id : String
  title : String
  src : String
  thumbnail : Option String
  duration : Option String
  created_at : String
  deriving DecidableEq, Repr

/-- The object the video listing resolves to. -/
structure VideosAnswer where
  data : Option (List VideoRow)
  error : Option String
  deriving DecidableEq, Repr

/-- What the gateway does during `init`: the outcomes of the session query, of
the profile query and of the video listing, and of the call
`supabase.auth.onAuthStateChange(..)`. -/
structure Gateway where
  session : Awaited SessionAnswer
  profile : Awaited ProfileAnswer
  videos : Awaited VideosAnswer
  subscribe : Awaited Unit

/-- The gateway installed when the SDK is missing (line 47), as `init` sees
it. -/
def stubGateway : Gateway :=
  { session := stubAwait { data := none, error := noopResult.error }
      [.prop "auth", .call "getSession"]
    profile := stubAwait { data := none, error := noopResult.error }
      [.call "from", .call "select", .call "eq", .call "single"]
    videos := stubAwait { data := none, error := noopResult.error }
      [.call "from", .call "select", .call "order"]
    subscribe :=
      match evalChain StubVal.proxy [.prop "auth", .call "onAuthStateChange"] with
      | .ok _ => .fulfilled ()
      | .error e => .thrown e }

/-- The object `state` as declared (lines 52-63), with the favorites and like
keys read from the local store, and an empty page. -/
def initialState (favorites likes : List String) : State :=
  { videos := [], favorites := favorites, likes := likes, user := none, isAdmin := false,
    currentPage := "home", watchingId := none, pushed := [], alerts := [], remote := [],
    videoGrid := [], relatedVideos := [], videoGridDelete := false, favGrid := [],
    favEmpty := false }

/-- The mapping of `init` (lines 125-134). `toLocaleDateString` stands for
`new Date(..).toLocaleDateString()`; `state.likes[v.id] || 0` is what the read
yields when that is truthy (the stored `true` for a liked id) and `0`
otherwise. -/
def mapVideo (toLocaleDateString : String → String) (likes : List String) (v : VideoRow) :
    Video :=
  { id := v.id, title := v.title, src := v.src, thumbnail := some (orElse v.thumbnail ""),
    duration := orElse v.duration "00:00", views := 0, date := toLocaleDateString v.created_at,
    likes :=
      match likesGet likes v.id with
      | some x => if x.truthy = true then x else JsVal.num 0
      | none => JsVal.num 0 }

/-- Step 2 of `init` (lines 116-143). Every exception ends in the `catch` block,
which empties the catalog; so does the call of `seedVideosIfEmpty`, a function
the script does not define. -/
def fetchVideos (toLocaleDateString : String → String) (st : State)
    (answer : Awaited VideosAnswer) : State :=
  match answer with
  | .thrown _ => { st with videos := [] }
  | .fulfilled a =>
    if a.error.isSome = true then { st with videos := [] }
    else
      match a.data with
      | none => { st with videos := [] }
      | some videos =>
        let st := { st with videos := videos.map (mapVideo toLocaleDateString st.likes) }
        if videos.length = 0 ∧ st.isAdmin = true then { st with videos := [] } else st

/-- Source `init` (lines 90-190). The result is the state when `init` returns,
or the message of an exception that no `try` block catches. -/
def init (toLocaleDateString : String → String) (favorites likes : List String)
    (gw : Gateway) (q : Query) : Except String State :=
  let st := initialState favorites likes
  let st := checkUserSession st gw.session gw.profile
  let st := fetchVideos toLocaleDateString st gw.videos
  let st :=
    match q.v with
    | some vParam =>
      if vParam != "" then openWatch (showPage st "home" false) vParam false
      else showPage st (orElse q.page "home") false
    | none => showPage st (orElse q.page "home") false
  match gw.subscribe with
  | .thrown message => .error message
  | .fulfilled _ => .ok st

/-- A state is signed out when `state.user` is `null` and `state.isAdmin` is
`false`. -/
def SignedOut (st : State) : Prop := st.user = none ∧ st.isAdmin = false

/-! ## Sign-in and the transition system -/

/-- The `user` object of a sign-in answer. -/
structure SignInUser where
  id : String
  email : String
  deriving DecidableEq, Repr

/-- The `data` object of a sign-in answer; `user` may be `null`. -/
structure SignInData where
  user : Option SignInUser
  deriving DecidableEq, Repr

/-- The object `auth.signInWithPassword(..)` resolves to. -/
structure SignInAnswer where
  data : Option SignInData
  error : Option String
  deriving DecidableEq, Repr

/-- The `submit` listener of the sign-in form (lines 875-916) for the outcomes
of its two awaited expressions. Every exception, the `TypeError`s of reading a
property of `null` included, ends in the `catch` block, which alerts the
message; `state.user` and `state.isAdmin` are assigned together at the end. -/
def signInSubmit (st : State) (answer : Awaited SignInAnswer)
    (profile : Awaited ProfileAnswer) : State :=
  match answer with
  | .thrown message => alert st message
  | .fulfilled a =>
    match a.error with
    | some message => alert st message
    | none =>
      match a.data with
      | none => alert st "Cannot read properties of null (reading 'user')"
      | some d =>
        match d.user with
        | none => alert st "Cannot read properties of null (reading 'id')"
        | some u =>
          match profile with
          | .thrown message => alert st message
          | .fulfilled p =>
            match p.error with
            | some message => alert st message
            | none =>
              match p.data with
              | none => alert st "Cannot read properties of null (reading 'id')"
              | some row =>
                { st with
                  user := some ⟨row.id, row.username, u.email⟩
                  isAdmin := row.is_admin }

/-- The events that change the state: every listener and every continuation of
a remote call, with the inputs it receives. -/
inductive Action where
  | navigate (name : String) (push : Bool)
  | openWatch (id : String) (push : Bool)
  | closeWatch (push : Bool)
  | popState (q : Query)
  | search (value : String)
  | upload (titleValue : String) (file : Option String) (objectUrl : String) (now : Nat)
  | cardClick (v : Video) (atDelete confirmed : Bool)
  | deleteThen (v : Video) (error : Option String)
  | like
  | favoritesThen (answer : Awaited FavoritesAnswer)
  | checkSession (session : Awaited SessionAnswer) (profile : Awaited ProfileAnswer)
  | signIn (answer : Awaited SignInAnswer) (profile : Awaited ProfileAnswer)
  | register (emailValue : String) (answer : Awaited SignUpAnswer)
  | signOut
  | authChange (event : String) (session : Awaited SessionAnswer)
      (profile : Awaited ProfileAnswer)

/-- One event handled to completion: the program is single-threaded, so the
listeners and continuations run one after the other. -/
def step (toLowerCase : String → String) (st : State) : Action → State
  | .navigate name push => showPage st name push
  | .openWatch id push => openWatch st id push
  | .closeWatch push => closeWatch st push
  | .popState q => onPopState st q
  | .search value => searchInput toLowerCase st value
  | .upload titleValue file objectUrl now => uploadSubmit st titleValue file objectUrl now
  | .cardClick v atDelete confirmed => gridCardClick st v atDelete confirmed
  | .deleteThen v error => deleteThen st v error
  | .like => likeClick st
  | .favoritesThen answer => renderFavoritesThen st answer
  | .checkSession session profile => checkUserSession st session profile
  | .signIn answer profile => signInSubmit st answer profile
  | .register emailValue answer => registerSubmit toLowerCase st emailValue answer
  | .signOut => signOutThen st
  | .authChange event session profile => onAuthStateChange st event session profile

/-- The state after a sequence of events, handled in order. -/
def run (toLowerCase : String → String) (st : State) (actions : List Action) : State :=
  actions.foldl (step toLowerCase) st

/-- The navigation invariant: no catalog video has the empty id, and a watching
id is a non-empty id with `watch` as the current page. -/
def WatchInv (st : State) : Prop :=
  (∀ v ∈ st.videos, v.id ≠ "") ∧
    ∀ id, st.watchingId = some id → id ≠ "" ∧ st.currentPage = "watch"

/-- The session invariant: without a user the admin flag is `false`. -/
def AdminInv (st : State) : Prop := st.user = none → st.isAdmin = false

/-! ## Sample states -/

/-- A catalog entry as the mapping of `init` builds it for an id that is not
liked (lines 125-134). -/
def sampleVideo (id title : String) : Video :=
  { id := id, title := title, src := "videos/" ++ id ++ ".mp4", thumbnail := some "",
    duration := "00:00", views := 0, date := "1/1/2026", likes := JsVal.num 0 }

/-- The state after start-up with the catalog `videos`, the stored like keys
`likes`, nobody signed in and the home page shown. -/
def sampleHome (videos : List Video) (likes : List String) : State :=
  { videos := videos, favorites := [], likes := likes, user := none, isAdmin := false,
    currentPage := "home", watchingId := none, pushed := [], alerts := [], remote := [],
    videoGrid := videos, relatedVideos := [], videoGridDelete := false, favGrid := [],
    favEmpty := false }

/-- Two videos, none liked, home page. -/
def sampleCatDog : State :=
  sampleHome [sampleVideo "a" "Cat Video", sampleVideo "b" "Dog Video"] []

/-- The state after a reload with the like of video `a` in the local store: the
mapping of `init` (line 133) copies the stored `true` into the `likes` field. -/
def sampleReloaded : State :=
  sampleHome [{ sampleVideo "a" "Cat Video" with likes := JsVal.bool true },
    sampleVideo "b" "Dog Video"] ["a"]

/-- An admin looking at the home page of the two-video catalog. -/
def sampleAdmin : State :=
  { sampleCatDog with user := some ⟨"u1", "admin_bob", "admin_bob@example.org"⟩, isAdmin := true }

/-- The admin of `sampleAdmin` after the home page was drawn for them: the cards
carry the delete control. -/
def sampleAdminHome : State := showPage sampleAdmin "home" false

/-- A row of the remote listing. -/
def sampleRow : VideoRow :=
  { id := "a", title := "Cat Video", src := "videos/a.mp4", thumbnail := none,
    duration := none, created_at := "2026-01-01T00:00:00Z" }

/-- A gateway that reports no session and lists the single video `a`. -/
def sampleGateway : Gateway :=
  { session := .fulfilled { data := some none, error := none }
    profile := .fulfilled { data := none, error := none }
    videos := .fulfilled { data := some [sampleRow], error := none }
    subscribe := .fulfilled () }

/-- The overlay open on a video whose id is `constructor`, with a like counter
of 5 and no stored like. -/
def sampleInherited : State :=
  { sampleHome [{ sampleVideo "constructor" "Cat Video" with likes := JsVal.num 5 }] [] with
    watchingId := some "constructor", currentPage := "watch" }

/-- A gateway that reports no session and lists a single video whose id is
`constructor`. -/
def sampleInheritedGateway : Gateway :=
  { session := .fulfilled { data := some none, error := none }
    profile := .fulfilled { data := none, error := none }
    videos := .fulfilled { data := some [{ sampleRow with id := "constructor" }], error := none }
    subscribe := .fulfilled () }

/-- The state `init` leaves on `?v=constructor` with that gateway and an empty
local store. -/
def sampleInheritedStart : State :=
  match init (fun d => d) [] [] sampleInheritedGateway ⟨none, some "constructor"⟩ with
  | .ok st => st
  | .error _ => initialState [] []

/-- An upload followed by opening the uploaded video. -/
def sampleWatchRun : List Action :=
  [.upload " Bird Video " (some "bird.mp4") "blob:1" 5, .openWatch "u5" true]

/-- A registration as `admin_bob`, an upload, and the sign-out callback. -/
def sampleSessionRun : List Action :=
  [.register "admin_bob@example.org" (.fulfilled ⟨some ⟨some ⟨"u1"⟩⟩, none⟩),
    .upload " Bird Video " (some "bird.mp4") "blob:1" 5, .signOut]

/-! ## Lemmas on the helpers -/

theorem findVideo_isSome_iff (videos : List Video) (id : String) :
    (findVideo videos id).isSome = true ↔ ∃ v ∈ videos, v.id = id := by
  simp [findVideo, List.find?_isSome]

theorem findVideo_eq_none_iff (videos : List Video) (id : String) :
    findVideo videos id = none ↔ ∀ v ∈ videos, v.id ≠ id := by
  simp [findVideo, List.find?_eq_none]

theorem findVideo_some_id {videos : List Video} {id : String} {v : Video}
    (h : findVideo videos id = some v) : v.id = id := by
  have := List.find?_some h
  simpa using this

theorem findVideo_some_mem {videos : List Video} {id : String} {v : Video}
    (h : findVideo videos id = some v) : v ∈ videos :=
  List.mem_of_find?_eq_some h

theorem findVideo_cons_eq (x : Video) (xs : List Video) (id : String) (hx : x.id = id) :
    findVideo (x :: xs) id = some x := by
  simp [findVideo, List.find?_cons, hx]

theorem findVideo_cons_ne (x : Video) (xs : List Video) (id : String) (hx : x.id ≠ id) :
    findVideo (x :: xs) id = findVideo xs id := by
  simp [findVideo, List.find?_cons, hx]

theorem findVideo_mutateFirst_some (id : String) (f : Video → Video)
    (hf : ∀ v, (f v).id = v.id) (videos : List Video) (v : Video)
    (h : findVideo videos id = some v) :
    findVideo (mutateFirst id f videos) id = some (f v) := by
  induction videos with
  | nil => simp [findVideo] at h
  | cons x xs ih =>
    by_cases hx : x.id = id
    · rw [findVideo_cons_eq x xs id hx] at h
      have hxv : x = v := by simpa using h
      subst hxv
      simp only [mutateFirst, hx, if_true]
      exact findVideo_cons_eq (f x) xs id (by rw [hf, hx])
    · rw [findVideo_cons_ne x xs id hx] at h
      simp only [mutateFirst, hx, if_false]
      rw [findVideo_cons_ne x _ id hx]
      exact ih h

theorem mutateFirst_comp (id : String) (f g : Video → Video)
    (hf : ∀ v, (f v).id = v.id) (videos : List Video) :
    mutateFirst id g (mutateFirst id f videos) = mutateFirst id (fun v => g (f v)) videos := by
  induction videos with
  | nil => rfl
  | cons x xs ih =>
    by_cases hx : x.id = id
    · simp [mutateFirst, hx, hf]
    · simp [mutateFirst, hx, ih]

theorem mutateFirst_forall₂ (id : String) (f : Video → Video) (R : Video → Video → Prop)
    (hrefl : ∀ v, R v v) (hf : ∀ v, v.id = id → R v (f v)) (videos : List Video) :
    List.Forall₂ R videos (mutateFirst id f videos) := by
  induction videos with
  | nil => exact List.Forall₂.nil
  | cons x xs ih =>
    by_cases hx : x.id = id
    · simp only [mutateFirst, hx, if_true]
      exact List.Forall₂.cons (hf x hx) (List.forall₂_same.mpr (fun v _ => hrefl v))
    · simp only [mutateFirst, hx, if_false]
      exact List.Forall₂.cons (hrefl x) ih

theorem proto_not_key {id : String} (hproto : id ∉ objectPrototypeKeys) : id ≠ "__proto__" := by
  intro h
  apply hproto
  rw [h]
  decide

theorem mem_likesSet_likesDelete (likes : List String) (id x : String) (h : id ∈ likes)
    (hp : id ≠ "__proto__") :
    x ∈ likesSet (likesDelete likes id) id ↔ x ∈ likes := by
  by_cases hx : x = id
  · subst hx; simp [likesSet, likesDelete, h, hp]
  · simp [likesSet, likesDelete, hx, hp]

theorem mem_likesDelete_likesSet (likes : List String) (id x : String) (h : id ∉ likes)
    (hp : id ≠ "__proto__") :
    x ∈ likesDelete (likesSet likes id) id ↔ x ∈ likes := by
  by_cases hx : x = id
  · subst hx; simp [likesSet, likesDelete, h, hp]
  · simp [likesSet, likesDelete, h, hx, hp]

theorem isLiked_iff (st : State) (x : String) :
    isLiked st x = true ↔ x ∈ st.likes ∨ x ∈ objectPrototypeKeys := by
  unfold isLiked likesGet
  by_cases h1 : x ∈ st.likes
  · simp [h1, JsVal.truthy]
  · by_cases h2 : x ∈ objectPrototypeKeys
    · simp [h1, h2, JsVal.truthy]
    · simp [h1, h2]

theorem isLiked_congr (a b : State) (h : ∀ x, x ∈ a.likes ↔ x ∈ b.likes) (x : String) :
    isLiked a x = isLiked b x := by
  rw [Bool.eq_iff_iff, isLiked_iff, isLiked_iff, h x]

theorem add_add_toNumber (x : JsVal) (d : Int) :
    ((x.add d).add (-d)).toNumber = x.toNumber := by
  cases x with
  | bool b => cases b <;> simp [JsVal.add, JsVal.toNumber]
  | num n => simp [JsVal.add, JsVal.toNumber]
  | nan => rfl
  | object name => rfl

/-! ## Likes: theorems -/

theorem likeClick_of_liked (st : State) (id : String) (v : Video)
    (hw : st.watchingId = some id) (hid : id ≠ "") (hfind : findVideo st.videos id = some v)
    (hl : isLiked st id = true) :
    likeClick st =
      { st with
        likes := likesDelete st.likes id
        videos := mutateFirst id decLikes st.videos } := by
  simp [likeClick, hw, hid, hfind, hl]

theorem likeClick_of_not_liked (st : State) (id : String) (v : Video)
    (hw : st.watchingId = some id) (hid : id ≠ "") (hfind : findVideo st.videos id = some v)
    (hl : isLiked st id = false) :
    likeClick st =
      { st with
        likes := likesSet st.likes id
        videos := mutateFirst id incLikes st.videos } := by
  simp [likeClick, hw, hid, hfind, hl]

/-- C1, as stated, fails for a catalog id that names a member of
`Object.prototype`: the read `state.likes[id]` then finds the inherited member,
so `isLiked` is `true` before and after every click and both clicks take the
unlike branch. With the overlay open on the video `constructor` and a counter
of 5, two clicks leave the counter at 3; after a start-up on `?v=constructor`
the counter, which the mapping of `init` filled with the inherited function,
is `NaN` after the clicks. -/
theorem likeClick_twice_inherited_key :
    sampleInherited.watchingId = some "constructor" ∧
      (∃ v ∈ sampleInherited.videos, v.id = "constructor") ∧
      sampleInherited.videos.map (fun v => v.likes.toNumber) = [some 5] ∧
      (likeClick (likeClick sampleInherited)).videos.map (fun v => v.likes.toNumber) =
        [some 3] ∧
      isLiked sampleInherited "constructor" = true ∧
      isLiked (likeClick sampleInherited) "constructor" = true ∧
      sampleInherited.likes = [] ∧
      sampleInheritedStart.watchingId = some "constructor" ∧
      sampleInheritedStart.videos.map (fun v => v.likes) = [JsVal.object "constructor"] ∧
      (likeClick sampleInheritedStart).videos.map (fun v => v.likes) = [JsVal.nan] ∧
      (likeClick (likeClick sampleInheritedStart)).videos.map (fun v => v.likes) =
        [JsVal.nan] := by
  decide

/-- C1, amended: when the watch overlay is open on a catalog video `id` that
does not name a member of `Object.prototype`, two runs of the like-button
handler give back every video's like counter with its original numeric value
(position by position, with every other field of the video untouched and every
video of another id exactly as it was), give back the liked flag of every id,
and leave the navigation state alone. -/
theorem likeClick_twice_restores (st : State) (id : String)
    (hw : st.watchingId = some id) (hin : ∃ v ∈ st.videos, v.id = id)
    (hproto : id ∉ objectPrototypeKeys) :
    List.Forall₂
        (fun w w2 => w2.likes.toNumber = w.likes.toNumber ∧ { w2 with likes := w.likes } = w ∧
          (w.id ≠ id → w2 = w))
        st.videos (likeClick (likeClick st)).videos ∧
      (∀ x, isLiked (likeClick (likeClick st)) x = isLiked st x) ∧
      (likeClick (likeClick st)).watchingId = st.watchingId ∧
      (likeClick (likeClick st)).currentPage = st.currentPage := by
  have hsome : (findVideo st.videos id).isSome = true := (findVideo_isSome_iff _ _).mpr hin
  obtain ⟨v, hv⟩ := Option.isSome_iff_exists.mp hsome
  have hp := proto_not_key hproto
  by_cases hid : id = ""
  · have h1 : likeClick st = st := by simp [likeClick, hw, hid]
    rw [h1, h1]
    exact ⟨List.forall₂_same.mpr (fun w _ => ⟨rfl, rfl, fun _ => rfl⟩), fun _ => rfl, rfl, rfl⟩
  · by_cases hl : id ∈ st.likes
    · have hl1 : isLiked st id = true := (isLiked_iff st id).mpr (Or.inl hl)
      have e1 := likeClick_of_liked st id v hw hid hv hl1
      have hl2 : isLiked (likeClick st) id = false := by
        rw [Bool.eq_false_iff]
        intro hc
        rw [isLiked_iff, e1] at hc
        rcases hc with hc | hc
        · simp [likesDelete] at hc
        · exact hproto hc
      have e2 := likeClick_of_not_liked (likeClick st) id (decLikes v) (by rw [e1]; exact hw) hid
        (by rw [e1]; exact findVideo_mutateFirst_some id decLikes (fun _ => rfl) st.videos v hv)
        hl2
      rw [e2, e1]
      refine ⟨?_, ?_, rfl, rfl⟩
      · show List.Forall₂ _ st.videos (mutateFirst id incLikes (mutateFirst id decLikes st.videos))
        rw [mutateFirst_comp id decLikes incLikes (fun _ => rfl)]
        apply mutateFirst_forall₂
        · intro w; exact ⟨rfl, rfl, fun _ => rfl⟩
        · intro w hwid
          refine ⟨?_, rfl, fun hne => absurd hwid hne⟩
          have := add_add_toNumber w.likes (-1)
          simpa [incLikes, decLikes] using this
      · intro x
        apply isLiked_congr
        intro y
        exact mem_likesSet_likesDelete st.likes id y hl hp
    · have hl1 : isLiked st id = false := by
        rw [Bool.eq_false_iff]
        intro hc
        rw [isLiked_iff] at hc
        rcases hc with hc | hc
        · exact hl hc
        · exact hproto hc
      have e1 := likeClick_of_not_liked st id v hw hid hv hl1
      have hl2 : isLiked (likeClick st) id = true := by
        rw [isLiked_iff, e1]
        left
        simp [likesSet, hl, hp]
      have e2 := likeClick_of_liked (likeClick st) id (incLikes v) (by rw [e1]; exact hw) hid
        (by rw [e1]; exact findVideo_mutateFirst_some id incLikes (fun _ => rfl) st.videos v hv)
        hl2
      rw [e2, e1]
      refine ⟨?_, ?_, rfl, rfl⟩
      · show List.Forall₂ _ st.videos (mutateFirst id decLikes (mutateFirst id incLikes st.videos))
        rw [mutateFirst_comp id incLikes decLikes (fun _ => rfl)]
        apply mutateFirst_forall₂
        · intro w; exact ⟨rfl, rfl, fun _ => rfl⟩
        · intro w hwid
          refine ⟨?_, rfl, fun hne => absurd hwid hne⟩
          have := add_add_toNumber w.likes 1
          simpa [incLikes, decLikes] using this
      · intro x
        apply isLiked_congr
        intro y
        exact mem_likesDelete_likesSet st.likes id y hl hp

/-- Witness of the amended C1 on the reloaded state with the overlay opened on
the liked video `a`, whose counter holds `true`. -/
theorem likeClick_twice_restores_witness :
    (openWatch sampleReloaded "a" true).watchingId = some "a" ∧
      (∃ v ∈ (openWatch sampleReloaded "a" true).videos, v.id = "a") ∧
      "a" ∉ objectPrototypeKeys ∧
      List.Forall₂
        (fun w w2 => w2.likes.toNumber = w.likes.toNumber ∧ { w2 with likes := w.likes } = w ∧
          (w.id ≠ "a" → w2 = w))
        (openWatch sampleReloaded "a" true).videos
        (likeClick (likeClick (openWatch sampleReloaded "a" true))).videos ∧
      (∀ x, isLiked (likeClick (likeClick (openWatch sampleReloaded "a" true))) x =
        isLiked (openWatch sampleReloaded "a" true) x) ∧
      (likeClick (likeClick (openWatch sampleReloaded "a" true))).watchingId =
        (openWatch sampleReloaded "a" true).watchingId ∧
      (likeClick (likeClick (openWatch sampleReloaded "a" true))).currentPage =
        (openWatch sampleReloaded "a" true).currentPage :=
  ⟨by decide, by decide, by decide,
    likeClick_twice_restores (openWatch sampleReloaded "a" true) "a" (by decide) (by decide)
      (by decide)⟩

/-- C2: the like count shown for a liked video. After a reload with video `a`
liked, `createCard` and `openWatch` print `true`; after a like click on a fresh
catalog `refreshCard` prints `true` on the card while the click handler itself
prints `1` in the overlay, the formatted value of the base count `0` plus one. -/
theorem liked_video_displays_true (fixedK : Int → String) :
    createCardLikes fixedK sampleReloaded
        { sampleVideo "a" "Cat Video" with likes := JsVal.bool true } = "true" ∧
      openWatchLikes fixedK sampleReloaded "a" = some "true" ∧
      refreshCardLikes fixedK (likeClick (openWatch sampleCatDog "a" true)) "a" = some "true" ∧
      likeCountAfterClick fixedK (openWatch sampleCatDog "a" true) "a" = some "1" ∧
      fmtLikes fixedK (JsVal.num (0 + 1)) = "1" ∧
      isLiked (likeClick (openWatch sampleCatDog "a" true)) "a" = true := by
  refine ⟨?_, ?_, ?_, ?_, ?_, ?_⟩
  · rfl
  · rfl
  · rfl
  · rfl
  · rfl
  · rfl

/-! ## Search: theorems -/

theorem includes_empty (t : String) : includes t "" = true := by
  simp [includes]

/-- C3: the cards the search listener renders into the grid are the catalog
videos, in catalog order, whose lower-cased title contains the trimmed,
lower-cased query; a query that is blank after trimming renders the whole
catalog (the built-in lower-casing keeps the empty string empty). -/
theorem searchInput_renders_matches (toLowerCase : String → String) (st : State)
    (value : String) :
    (searchInput toLowerCase st value).videoGrid =
        st.videos.filter
          (fun v => decide ((toLowerCase (jsTrim value)).data <:+: (toLowerCase v.title).data)) ∧
      (toLowerCase "" = "" → jsTrim value = "" →
        (searchInput toLowerCase st value).videoGrid = st.videos) := by
  have hgrid : (searchInput toLowerCase st value).videoGrid =
      searchFiltered toLowerCase st.videos value := by
    simp only [searchInput, renderVideoGrid]
  have hfilter : searchFiltered toLowerCase st.videos value =
      st.videos.filter
        (fun v => decide ((toLowerCase (jsTrim value)).data <:+: (toLowerCase v.title).data)) := by
    unfold searchFiltered
    by_cases hq : toLowerCase (jsTrim value) = ""
    · simp [hq]
    · simp [hq, includes]
  refine ⟨hgrid.trans hfilter, ?_⟩
  intro hempty hblank
  rw [hgrid, hfilter, hblank, hempty]
  simp

/-- Witness of C3: the query `cat` (typed as ` CAT `) over the titles
`Cat Video`, `Dog Video` renders exactly `Cat Video`, and a blank query renders
both. -/
theorem searchInput_renders_matches_witness :
    (searchInput asciiLower sampleCatDog " CAT ").videoGrid = [sampleVideo "a" "Cat Video"] ∧
      asciiLower "" = "" ∧ jsTrim "  " = "" ∧
      (searchInput asciiLower sampleCatDog "  ").videoGrid = sampleCatDog.videos :=
  ⟨(searchInput_renders_matches asciiLower sampleCatDog " CAT ").1.trans (by decide),
    by decide, by decide,
    (searchInput_renders_matches asciiLower sampleCatDog "  ").2 (by decide) (by decide)⟩

/-! ## Navigation: theorems -/

/-- C4: for an id that no catalog video carries, `openWatch` returns the state
it was given, whatever `updateHistory` is: watching id, current page, view
counters, pushed history entries and the requests sent to the gateway (so no
history visit) are all unchanged. -/
theorem openWatch_absent_noop (st : State) (id : String) (push : Bool)
    (habsent : ∀ v ∈ st.videos, v.id ≠ id) :
    openWatch st id push = st := by
  have h : findVideo st.videos id = none := (findVideo_eq_none_iff _ _).mpr habsent
  simp [openWatch, h]

/-- Witness of C4: the dangling id `zz` on the two-video catalog. -/
theorem openWatch_absent_noop_witness :
    (∀ v ∈ sampleCatDog.videos, v.id ≠ "zz") ∧
      openWatch sampleCatDog "zz" true = sampleCatDog ∧
      openWatch sampleCatDog "zz" false = sampleCatDog :=
  ⟨by decide, openWatch_absent_noop sampleCatDog "zz" true (by decide),
    openWatch_absent_noop sampleCatDog "zz" false (by decide)⟩

/-- C5: opening video `a` from the home page and closing the overlay with
`closeWatch(true)` leaves `watch` as the current page and pushes `?page=watch`:
`openWatch` has overwritten `state.currentPage` through `showPage('watch')`, so
the page that was active before is not restored. -/
theorem closeWatch_after_openWatch_keeps_watch :
    sampleCatDog.currentPage = "home" ∧
      (closeWatch (openWatch sampleCatDog "a" true) true).currentPage = "watch" ∧
      (closeWatch (openWatch sampleCatDog "a" false) true).currentPage = "watch" ∧
      (closeWatch (openWatch sampleCatDog "a" true) true).pushed =
        [⟨PushedState.v "a", Url.relative "?v=a"⟩,
          ⟨PushedState.page "watch", Url.relative "?page=watch"⟩] ∧
      (closeWatch (openWatch sampleCatDog "a" false) true).pushed =
        [⟨PushedState.page "watch", Url.relative "?page=watch"⟩] := by
  decide

/-- C6: with an overlay open (a watching id that `showPage` sees as set, that
is a non-empty one) and a page name other than `watch`, `showPage` resets the
watching id, makes `name` the current page and pushes exactly one entry when
asked to (the bare path for home, `?page=<name>` otherwise) and none when not;
closing the overlay adds no entry. -/
theorem showPage_closes_overlay (st : State) (name id : String)
    (hw : st.watchingId = some id) (hid : id ≠ "") (hname : name ≠ "watch") :
    (showPage st name true).watchingId = none ∧
      (showPage st name false).watchingId = none ∧
      (showPage st name true).currentPage = name ∧
      (showPage st name false).currentPage = name ∧
      (showPage st name true).pushed =
        st.pushed ++ [⟨PushedState.page name,
          if name = "home" then Url.pathname else Url.relative ("?page=" ++ name)⟩] ∧
      (showPage st name false).pushed = st.pushed := by
  have ht : truthy (some id) = true := by simp [truthy, hid]
  by_cases hhome : name = "home"
  · simp [showPage, closeWatch, pushState, pageUrl, renderVideoGrid, hw, hname, ht, hhome]
  · by_cases hfav : name = "favorites"
    · by_cases hu : st.user = none <;>
        simp [showPage, closeWatch, pushState, pageUrl, renderFavorites, hw, hname, ht, hhome,
          hfav, hu]
    · simp [showPage, closeWatch, pushState, pageUrl, hw, hname, ht, hhome, hfav]

/-- Witness of C6: leaving the overlay of video `a` for the favorites page. -/
theorem showPage_closes_overlay_witness :
    (openWatch sampleCatDog "a" true).watchingId = some "a" ∧
      (showPage (openWatch sampleCatDog "a" true) "favorites" true).watchingId = none ∧
      (showPage (openWatch sampleCatDog "a" true) "favorites" true).pushed =
        (openWatch sampleCatDog "a" true).pushed ++
          [⟨PushedState.page "favorites", Url.relative "?page=favorites"⟩] :=
  ⟨by decide,
    (showPage_closes_overlay (openWatch sampleCatDog "a" true) "favorites" "a"
      (by decide) (by decide) (by decide)).1,
    (showPage_closes_overlay (openWatch sampleCatDog "a" true) "favorites" "a"
      (by decide) (by decide) (by decide)).2.2.2.2.1⟩

theorem showPage_pushed_false (st : State) (name : String) :
    (showPage st name false).pushed = st.pushed := by
  unfold showPage closeWatch renderVideoGrid renderFavorites
  simp only [Bool.false_eq_true, if_false]
  split_ifs <;> rfl

theorem showPage_currentPage (st : State) (name : String) (push : Bool) :
    (showPage st name push).currentPage = name := by
  unfold showPage closeWatch pushState renderVideoGrid renderFavorites
  simp only [Bool.false_eq_true, if_false]
  split_ifs <;> rfl

theorem openWatch_pushed_false (st : State) (id : String) :
    (openWatch st id false).pushed = st.pushed := by
  unfold openWatch
  cases h : findVideo st.videos id with
  | none => rfl
  | some v =>
    simp only [Bool.false_eq_true, if_false]
    rw [showPage_pushed_false]
    simp only [renderRelated, addToHistory]
    cases st.user <;> rfl

theorem openWatch_watchingId (st : State) (id : String) (push : Bool)
    (hin : ∃ v ∈ st.videos, v.id = id) :
    (openWatch st id push).watchingId = some id := by
  have hsome : (findVideo st.videos id).isSome = true := (findVideo_isSome_iff _ _).mpr hin
  obtain ⟨v, hv⟩ := Option.isSome_iff_exists.mp hsome
  unfold openWatch
  rw [hv]
  simp only [showPage, pushState, renderRelated, addToHistory]
  cases st.user <;> cases push <;> simp

/-- C7: the `popstate` listener pushes no history entry. When the query has no
`v` parameter the current page becomes the value of `page`, or home when
`page` is absent or empty. When `v` names a catalog video (a non-empty id that
a catalog video carries), that video becomes the watched one. -/
theorem onPopState_no_push (st : State) (q : Query) :
    (onPopState st q).pushed = st.pushed ∧
      (∀ p, q.v = none → q.page = some p → p ≠ "" → (onPopState st q).currentPage = p) ∧
      (q.v = none → (q.page = none ∨ q.page = some "") →
        (onPopState st q).currentPage = "home") ∧
      (∀ id, q.v = some id → id ≠ "" → (∃ v ∈ st.videos, v.id = id) →
        (onPopState st q).watchingId = some id) := by
  refine ⟨?_, ?_, ?_, ?_⟩
  · unfold onPopState
    cases hv : q.v with
    | none => exact showPage_pushed_false st _
    | some pV =>
      simp only []
      split_ifs
      · exact openWatch_pushed_false st pV
      · exact showPage_pushed_false st _
  · intro p hv hp hne
    simp [onPopState, hv, showPage_currentPage, orElse, hp, hne]
  · intro hv hp
    rcases hp with hp | hp <;>
      simp [onPopState, hv, showPage_currentPage, orElse, hp]
  · intro id hv hne hin
    simp [onPopState, hv, hne, openWatch_watchingId st id false hin]

/-- Witness of C7: back to `?page=favorites` from an open overlay, and back to
`?v=b` from the home page. -/
theorem onPopState_no_push_witness :
    (onPopState (openWatch sampleCatDog "a" true) ⟨some "favorites", none⟩).currentPage =
        "favorites" ∧
      (onPopState (openWatch sampleCatDog "a" true) ⟨none, none⟩).currentPage = "home" ∧
      (onPopState sampleCatDog ⟨none, some "b"⟩).watchingId = some "b" ∧
      (onPopState sampleCatDog ⟨none, some "b"⟩).pushed = sampleCatDog.pushed :=
  ⟨(onPopState_no_push (openWatch sampleCatDog "a" true) ⟨some "favorites", none⟩).2.1
      "favorites" rfl rfl (by decide),
    (onPopState_no_push (openWatch sampleCatDog "a" true) ⟨none, none⟩).2.2.1 rfl (Or.inl rfl),
    (onPopState_no_push sampleCatDog ⟨none, some "b"⟩).2.2.2 "b" rfl (by decide) (by decide),
    (onPopState_no_push sampleCatDog ⟨none, some "b"⟩).1⟩

/-! ## Delete: theorems -/

theorem showPage_videos (st : State) (name : String) (push : Bool) :
    (showPage st name push).videos = st.videos := by
  unfold showPage closeWatch pushState renderVideoGrid renderFavorites
  simp only [Bool.false_eq_true, if_false]
  split_ifs <;> rfl

theorem logAdminAction_videos (st : State) (type description : String) :
    (logAdminAction st type description).videos = st.videos := by
  unfold logAdminAction
  cases st.user with
  | none => rfl
  | some u => simp only []; split_ifs <;> rfl

theorem logAdminAction_currentPage (st : State) (type description : String) :
    (logAdminAction st type description).currentPage = st.currentPage := by
  unfold logAdminAction
  cases st.user with
  | none => rfl
  | some u => simp only []; split_ifs <;> rfl

theorem closeWatch_videos (st : State) (push : Bool) :
    (closeWatch st push).videos = st.videos := by
  unfold closeWatch pushState
  split_ifs <;> rfl

theorem closeWatch_watchingId (st : State) (push : Bool) :
    (closeWatch st push).watchingId = none := by
  unfold closeWatch pushState
  split_ifs <;> rfl

theorem closeWatch_videoGrid (st : State) (push : Bool) :
    (closeWatch st push).videoGrid = st.videoGrid := by
  unfold closeWatch pushState
  split_ifs <;> rfl

theorem showPage_home_videoGrid (st : State) (push : Bool) :
    (showPage st "home" push).videoGrid = st.videos := by
  unfold showPage closeWatch pushState renderVideoGrid renderFavorites
  simp only [Bool.false_eq_true, if_false]
  split_ifs <;> rfl

theorem deleteThen_videos (st : State) (v : Video) :
    (deleteThen st v none).videos = st.videos.filter (fun vid => vid.id != v.id) := by
  simp only [deleteThen]
  split_ifs
  · rw [closeWatch_videos, showPage_videos, logAdminAction_videos]
  · rw [showPage_videos, logAdminAction_videos]

theorem deleteThen_watchingId (st : State) (v : Video) :
    (deleteThen st v none).watchingId ≠ some v.id := by
  simp only [deleteThen]
  split_ifs with h
  · rw [closeWatch_watchingId]; simp
  · exact h

theorem showPage_watchingId_cases (st : State) (name : String) (push : Bool) :
    (showPage st name push).watchingId = none ∨
      (showPage st name push).watchingId = st.watchingId := by
  unfold showPage closeWatch pushState renderVideoGrid renderFavorites
  simp only [Bool.false_eq_true, if_false]
  split_ifs <;> simp

theorem logAdminAction_watchingId (st : State) (type description : String) :
    (logAdminAction st type description).watchingId = st.watchingId := by
  unfold logAdminAction
  cases st.user with
  | none => rfl
  | some u => simp only []; split_ifs <;> rfl

theorem findVideo_filter_ne {videos : List Video} {vid id : String} {w : Video}
    (h : findVideo (videos.filter (fun x => x.id != vid)) id = some w) : w.id ≠ vid := by
  have hm := findVideo_some_mem h
  simpa using (List.mem_filter.mp hm).2

/-- C9: after the continuation of a successful delete of `v` has run, no video
with `v`'s id is left in the catalog, in the result of any search, in the
favorites subset of any id list, in the history subset of any row list or in
the related list of any video; the grid re-rendered for the home page has none
either; and if `v` was the watched video the watching id is reset. -/
theorem deleteThen_removes_everywhere (st : State) (v : Video) :
    (∀ w ∈ (deleteThen st v none).videos, w.id ≠ v.id) ∧
      (∀ (toLowerCase : String → String) (value : String),
        ∀ w ∈ searchFiltered toLowerCase (deleteThen st v none).videos value, w.id ≠ v.id) ∧
      (∀ favVideoIds, ∀ w ∈ favoritesView (deleteThen st v none).videos favVideoIds,
        w.id ≠ v.id) ∧
      (∀ history, ∀ w ∈ historyView (deleteThen st v none).videos history, w.id ≠ v.id) ∧
      (∀ currentId, ∀ w ∈ others (deleteThen st v none).videos currentId, w.id ≠ v.id) ∧
      (st.currentPage = "home" → ∀ w ∈ (deleteThen st v none).videoGrid, w.id ≠ v.id) ∧
      (st.watchingId = some v.id → (deleteThen st v none).watchingId = none) := by
  have hcat : ∀ w ∈ (deleteThen st v none).videos, w.id ≠ v.id := by
    intro w hw
    rw [deleteThen_videos] at hw
    simpa using (List.mem_filter.mp hw).2
  refine ⟨hcat, ?_, ?_, ?_, ?_, ?_, ?_⟩
  · intro toLowerCase value w hw
    unfold searchFiltered at hw
    simp only [] at hw
    split_ifs at hw
    · exact hcat w (List.mem_filter.mp hw).1
    · exact hcat w hw
  · intro favVideoIds w hw
    exact hcat w (List.mem_filter.mp hw).1
  · intro history w hw
    unfold historyView at hw
    obtain ⟨id, _, hfind⟩ := List.mem_filterMap.mp hw
    exact hcat w (findVideo_some_mem hfind)
  · intro currentId w hw
    exact hcat w (List.mem_filter.mp hw).1
  · intro hhome w hw
    have hgrid : (deleteThen st v none).videoGrid =
        st.videos.filter (fun vid => vid.id != v.id) := by
      simp only [deleteThen, logAdminAction_currentPage, hhome]
      split_ifs
      · rw [closeWatch_videoGrid, showPage_home_videoGrid, logAdminAction_videos]
      · rw [showPage_home_videoGrid, logAdminAction_videos]
    rw [hgrid] at hw
    simpa using (List.mem_filter.mp hw).2
  · intro hwatch
    have hne := deleteThen_watchingId st v
    simp only [deleteThen] at hne ⊢
    split_ifs with h
    · exact closeWatch_watchingId _ true
    · rcases showPage_watchingId_cases
        (logAdminAction { st with videos := st.videos.filter (fun vid => vid.id != v.id) }
          "delete" ("Deleted video: " ++ v.title))
        (logAdminAction { st with videos := st.videos.filter (fun vid => vid.id != v.id) }
          "delete" ("Deleted video: " ++ v.title)).currentPage true with hc | hc
      · exact hc
      · rw [logAdminAction_watchingId] at hc
        exact absurd (hc.trans hwatch) h

/-- C10: when the delete request comes back with an error, the continuation
changes nothing but the alerts: catalog, watching id, current page, pushed
history entries, like keys, session, rendered grid and the requests sent to the
gateway (so no admin log entry) are as before, and one alert carrying the
error message is shown. -/
theorem deleteThen_error_unchanged (st : State) (v : Video) (message : String) :
    (deleteThen st v (some message)).videos = st.videos ∧
      (deleteThen st v (some message)).watchingId = st.watchingId ∧
      (deleteThen st v (some message)).currentPage = st.currentPage ∧
      (deleteThen st v (some message)).pushed = st.pushed ∧
      (deleteThen st v (some message)).remote = st.remote ∧
      (deleteThen st v (some message)).likes = st.likes ∧
      (deleteThen st v (some message)).favorites = st.favorites ∧
      (deleteThen st v (some message)).user = st.user ∧
      (deleteThen st v (some message)).isAdmin = st.isAdmin ∧
      (deleteThen st v (some message)).videoGrid = st.videoGrid ∧
      (deleteThen st v (some message)).relatedVideos = st.relatedVideos ∧
      (deleteThen st v (some message)).alerts =
        st.alerts ++ ["Failed to delete the video: " ++ message] :=
  ⟨rfl, rfl, rfl, rfl, rfl, rfl, rfl, rfl, rfl, rfl, rfl, rfl⟩

/-- Witness of C9: an admin deletes video `a` while watching it. -/
theorem deleteThen_removes_everywhere_witness :
    (openWatch sampleAdmin "a" true).watchingId = some "a" ∧
      (deleteThen (openWatch sampleAdmin "a" true) (sampleVideo "a" "Cat Video") none).watchingId
        = none ∧
      (∀ w ∈ (deleteThen (openWatch sampleAdmin "a" true)
          (sampleVideo "a" "Cat Video") none).videos, w.id ≠ "a") ∧
      (sampleAdmin.currentPage = "home" ∧
        ∀ w ∈ (deleteThen sampleAdmin (sampleVideo "a" "Cat Video") none).videoGrid,
          w.id ≠ "a") :=
  ⟨by decide,
    (deleteThen_removes_everywhere (openWatch sampleAdmin "a" true)
      (sampleVideo "a" "Cat Video")).2.2.2.2.2.2 (by decide),
    (deleteThen_removes_everywhere (openWatch sampleAdmin "a" true)
      (sampleVideo "a" "Cat Video")).1,
    by decide,
    (deleteThen_removes_everywhere sampleAdmin (sampleVideo "a" "Cat Video")).2.2.2.2.2.1
      (by decide)⟩

/-! ## History view: theorems -/

theorem newSet_foldl (acc xs : List String) :
    xs.foldl (fun acc x => if x ∈ acc then acc else acc ++ [x]) acc =
      acc ++ (newSet xs).filter (fun y => decide (y ∉ acc)) := by
  induction xs generalizing acc with
  | nil => simp [newSet]
  | cons x xs ih =>
    have hx : newSet (x :: xs) = [x] ++ (newSet xs).filter (fun y => decide (y ∉ [x])) := by
      have := ih [x]
      simpa [newSet] using this
    rw [hx, List.foldl_cons]
    by_cases hmem : x ∈ acc
    · rw [if_pos hmem, ih acc]
      congr 1
      simp only [List.filter_append, List.filter_filter]
      have hdrop : List.filter (fun y => decide (y ∉ acc)) [x] = [] := by simp [hmem]
      rw [hdrop, List.nil_append]
      apply List.filter_congr
      intro y _
      by_cases hy : y ∈ acc
      · simp [hy]
      · have : y ≠ x := fun h => hy (h ▸ hmem)
        simp [hy, this]
    · rw [if_neg hmem, ih (acc ++ [x])]
      simp only [List.filter_append, List.filter_filter, List.append_assoc]
      congr 1
      have hkeep : List.filter (fun y => decide (y ∉ acc)) [x] = [x] := by simp [hmem]
      rw [hkeep]
      congr 1
      apply List.filter_congr
      intro y _
      by_cases hy : y ∈ acc <;> by_cases hyx : y = x <;> simp [hy, hyx]

theorem newSet_nil : newSet [] = [] := rfl

theorem newSet_cons (x : String) (xs : List String) :
    newSet (x :: xs) = x :: (newSet xs).filter (fun y => y != x) := by
  have h := newSet_foldl [x] xs
  have e : newSet (x :: xs) =
      xs.foldl (fun acc x => if x ∈ acc then acc else acc ++ [x]) [x] := by
    simp [newSet]
  rw [e, h]
  simp only [List.singleton_append, List.cons.injEq, true_and]
  apply List.filter_congr
  intro y _
  by_cases hyx : y = x <;> simp [hyx]

theorem mem_newSet (xs : List String) (y : String) : y ∈ newSet xs ↔ y ∈ xs := by
  induction xs with
  | nil => simp [newSet_nil]
  | cons x xs ih =>
    rw [newSet_cons]
    by_cases hyx : y = x
    · simp [hyx]
    · simp [hyx, ih]

theorem nodup_newSet (xs : List String) : (newSet xs).Nodup := by
  induction xs with
  | nil => simp [newSet_nil]
  | cons x xs ih =>
    rw [newSet_cons, List.nodup_cons]
    exact ⟨by simp, ih.filter _⟩

theorem uniqueHistoryIds_cons (r : HistoryRow) (rs : List HistoryRow) :
    uniqueHistoryIds (r :: rs) =
      r.video_id :: (uniqueHistoryIds rs).filter (fun y => y != r.video_id) := by
  simp [uniqueHistoryIds, newSet_cons]

theorem nodup_uniqueHistoryIds (history : List HistoryRow) :
    (uniqueHistoryIds history).Nodup :=
  nodup_newSet _

theorem mem_uniqueHistoryIds (history : List HistoryRow) (id : String) :
    id ∈ uniqueHistoryIds history ↔ ∃ r ∈ history, r.video_id = id := by
  simp [uniqueHistoryIds, mem_newSet]

theorem lastWatched_le_iff (history : List HistoryRow) (id : String) (n : Nat) :
    lastWatched history id ≤ n ↔ ∀ r ∈ history, r.video_id = id → r.watched_at ≤ n := by
  induction history with
  | nil => simp [lastWatched]
  | cons r rs ih =>
    by_cases hr : r.video_id = id
    · have e : lastWatched (r :: rs) id = max r.watched_at (lastWatched rs id) := by
        simp [lastWatched, List.filter_cons, hr]
      rw [e, Nat.max_le, ih]
      simp [hr]
    · have e : lastWatched (r :: rs) id = lastWatched rs id := by
        simp [lastWatched, List.filter_cons, hr]
      rw [e, ih]
      simp [hr]

theorem lastWatched_perm {h₁ h₂ : List HistoryRow} (hp : h₁.Perm h₂) (id : String) :
    lastWatched h₁ id = lastWatched h₂ id := by
  apply Nat.le_antisymm
  · rw [lastWatched_le_iff]
    intro r hr hid
    exact (lastWatched_le_iff h₂ id _).mp (Nat.le_refl _) r (hp.subset hr) hid
  · rw [lastWatched_le_iff]
    intro r hr hid
    exact (lastWatched_le_iff h₁ id _).mp (Nat.le_refl _) r (hp.symm.subset hr) hid

theorem uniqueHistoryIds_pairwise (history : List HistoryRow)
    (hsorted : history.Pairwise (fun r s => s.watched_at ≤ r.watched_at)) :
    (uniqueHistoryIds history).Pairwise
      (fun a b => lastWatched history b ≤ lastWatched history a) := by
  induction history with
  | nil => simp [uniqueHistoryIds, newSet_nil]
  | cons r rs ih =>
    obtain ⟨hr, hrs⟩ := List.pairwise_cons.mp hsorted
    rw [uniqueHistoryIds_cons, List.pairwise_cons]
    have htop : r.watched_at ≤ lastWatched (r :: rs) r.video_id := by
      by_contra hlt
      have hle : lastWatched (r :: rs) r.video_id ≤ lastWatched (r :: rs) r.video_id :=
        Nat.le_refl _
      have := (lastWatched_le_iff (r :: rs) r.video_id _).mp hle r (List.mem_cons_self _ _) rfl
      exact hlt this
    have hother : ∀ y, y ≠ r.video_id → lastWatched (r :: rs) y = lastWatched rs y := by
      intro y hy
      have hy2 : r.video_id ≠ y := fun h => hy h.symm
      simp [lastWatched, List.filter_cons, hy2]
    constructor
    · intro y hy
      have hyne : y ≠ r.video_id := by simpa using (List.mem_filter.mp hy).2
      rw [hother y hyne]
      refine Nat.le_trans ?_ htop
      rw [lastWatched_le_iff]
      intro s hs _
      exact hr s hs
    · have hfil := (ih hrs).filter (fun y => y != r.video_id)
      refine hfil.imp_of_mem ?_
      intro a b ha hb hab
      have hane : a ≠ r.video_id := by simpa using (List.mem_filter.mp ha).2
      have hbne : b ≠ r.video_id := by simpa using (List.mem_filter.mp hb).2
      rw [hother a hane, hother b hbne]
      exact hab

theorem eq_of_perm_of_pairwise {α : Type} {R : α → α → Prop} :
    ∀ (l₁ l₂ : List α), l₁.Perm l₂ → l₁.Pairwise R → l₂.Pairwise R →
      (∀ a ∈ l₁, ∀ b ∈ l₁, R a b → R b a → a = b) → l₁ = l₂ := by
  intro l₁
  induction l₁ with
  | nil =>
    intro l₂ hp _ _ _
    exact (List.Perm.nil_eq hp)
  | cons a t ih =>
    intro l₂ hp h₁ h₂ hanti
    cases l₂ with
    | nil => exact absurd hp.symm.nil_eq (by simp)
    | cons b u =>
      have hab : a = b := by
        by_contra hne
        have ha : a ∈ u := by
          have := hp.subset (List.mem_cons_self a t)
          rcases List.mem_cons.mp this with h | h
          · exact absurd h hne
          · exact h
        have hb : b ∈ t := by
          have := hp.symm.subset (List.mem_cons_self b u)
          rcases List.mem_cons.mp this with h | h
          · exact absurd h.symm hne
          · exact h
        have rba : R b a := (List.pairwise_cons.mp h₂).1 a ha
        have rab : R a b := (List.pairwise_cons.mp h₁).1 b hb
        exact hne (hanti a (List.mem_cons_self a t) b (List.mem_cons_of_mem a hb) rab rba)
      subst hab
      have hp2 : t.Perm u := List.Perm.cons_inv hp
      have := ih u hp2 (List.pairwise_cons.mp h₁).2 (List.pairwise_cons.mp h₂).2
        (fun x hx y hy => hanti x (List.mem_cons_of_mem a hx) y (List.mem_cons_of_mem a hy))
      rw [this]

/-- C8, as stated, fails: `renderHistory` keeps the rows in the order of the
gateway answer and does not sort. With the rows listed oldest first the view is
`a, b` although `b` was watched last, and listing the same rows the other way
round gives `b, a`; two videos watched at the same instant come out in the order
of the listing even when both listings are newest first. -/
theorem historyView_follows_listing :
    historyView sampleCatDog.videos [⟨"a", 1⟩, ⟨"b", 2⟩] =
        [sampleVideo "a" "Cat Video", sampleVideo "b" "Dog Video"] ∧
      lastWatched [⟨"a", 1⟩, ⟨"b", 2⟩] "a" < lastWatched [⟨"a", 1⟩, ⟨"b", 2⟩] "b" ∧
      historyView sampleCatDog.videos [⟨"b", 2⟩, ⟨"a", 1⟩] =
        [sampleVideo "b" "Dog Video", sampleVideo "a" "Cat Video"] ∧
      List.Perm [(⟨"b", 2⟩ : HistoryRow), ⟨"a", 1⟩] [⟨"a", 1⟩, ⟨"b", 2⟩] ∧
      historyView sampleCatDog.videos [⟨"b", 2⟩, ⟨"a", 1⟩] ≠
        historyView sampleCatDog.videos [⟨"a", 1⟩, ⟨"b", 2⟩] ∧
      List.Pairwise (fun r s : HistoryRow => s.watched_at ≤ r.watched_at) [⟨"a", 5⟩, ⟨"b", 5⟩] ∧
      List.Pairwise (fun r s : HistoryRow => s.watched_at ≤ r.watched_at) [⟨"b", 5⟩, ⟨"a", 5⟩] ∧
      historyView sampleCatDog.videos [⟨"a", 5⟩, ⟨"b", 5⟩] ≠
        historyView sampleCatDog.videos [⟨"b", 5⟩, ⟨"a", 5⟩] := by
  decide

/-- C8, amended: when the gateway answers with the rows newest first, as the
query asks, the history view holds exactly the catalog videos (the first one of
each id) that have a row, no id twice, ordered by their most recent
`watched_at`, newest first; and any other newest-first listing of the same rows
gives the same view, provided different watched videos differ in their most
recent `watched_at`. -/
theorem historyView_of_newest_first (videos : List Video) (history : List HistoryRow)
    (hsorted : history.Pairwise (fun r s => s.watched_at ≤ r.watched_at)) :
    ((historyView videos history).map (fun w => w.id)).Nodup ∧
      (∀ w, w ∈ historyView videos history ↔
        (∃ r ∈ history, r.video_id = w.id) ∧ findVideo videos w.id = some w) ∧
      (historyView videos history).Pairwise
        (fun x y => lastWatched history y.id ≤ lastWatched history x.id) ∧
      (∀ history₂ : List HistoryRow, history₂.Perm history →
        history₂.Pairwise (fun r s => s.watched_at ≤ r.watched_at) →
        (∀ r ∈ history, ∀ s ∈ history, r.video_id ≠ s.video_id →
          lastWatched history r.video_id ≠ lastWatched history s.video_id) →
        historyView videos history₂ = historyView videos history) := by
  refine ⟨?_, ?_, ?_, ?_⟩
  · unfold historyView
    rw [List.Nodup, List.pairwise_map]
    refine List.Pairwise.filterMap _ ?_ (nodup_uniqueHistoryIds history)
    intro a b hab w hw w2 hw2
    rw [findVideo_some_id hw, findVideo_some_id hw2]
    exact hab
  · intro w
    unfold historyView
    rw [List.mem_filterMap]
    constructor
    · rintro ⟨id, hid, hfind⟩
      have e := findVideo_some_id hfind
      subst e
      exact ⟨(mem_uniqueHistoryIds history _).mp hid, hfind⟩
    · rintro ⟨hrow, hfind⟩
      exact ⟨w.id, (mem_uniqueHistoryIds history _).mpr hrow, hfind⟩
  · unfold historyView
    refine List.Pairwise.filterMap _ ?_ (uniqueHistoryIds_pairwise history hsorted)
    intro a b hab w hw w2 hw2
    rw [findVideo_some_id hw, findVideo_some_id hw2]
    exact hab
  · intro history₂ hperm hsorted₂ hdistinct
    have hids : uniqueHistoryIds history₂ = uniqueHistoryIds history := by
      apply eq_of_perm_of_pairwise (R := fun a b => lastWatched history b ≤ lastWatched history a)
      · refine (List.perm_ext_iff_of_nodup (nodup_uniqueHistoryIds _)
          (nodup_uniqueHistoryIds _)).mpr ?_
        intro id
        rw [mem_uniqueHistoryIds, mem_uniqueHistoryIds]
        constructor
        · rintro ⟨r, hr, hid⟩; exact ⟨r, hperm.subset hr, hid⟩
        · rintro ⟨r, hr, hid⟩; exact ⟨r, hperm.symm.subset hr, hid⟩
      · have h2 := uniqueHistoryIds_pairwise history₂ hsorted₂
        refine h2.imp ?_
        intro a b hab
        rw [← lastWatched_perm hperm a, ← lastWatched_perm hperm b]
        exact hab
      · exact uniqueHistoryIds_pairwise history hsorted
      · intro a ha b hb hab hba
        by_contra hne
        obtain ⟨r, hr, hra⟩ := (mem_uniqueHistoryIds history₂ a).mp ha
        obtain ⟨s, hs, hsb⟩ := (mem_uniqueHistoryIds history₂ b).mp hb
        have := hdistinct r (hperm.subset hr) s (hperm.subset hs) (by rw [hra, hsb]; exact hne)
        rw [hra, hsb] at this
        exact this (Nat.le_antisymm hba hab)
    unfold historyView
    rw [hids]

/-- Witness of the amended C8: video `b` watched at 9 and 3, video `a` at 7 and
3, listed newest first in two ways. -/
theorem historyView_of_newest_first_witness :
    List.Pairwise (fun r s : HistoryRow => s.watched_at ≤ r.watched_at)
        [⟨"b", 9⟩, ⟨"a", 7⟩, ⟨"a", 3⟩, ⟨"b", 3⟩] ∧
      historyView sampleCatDog.videos [⟨"b", 9⟩, ⟨"a", 7⟩, ⟨"b", 3⟩, ⟨"a", 3⟩] =
        historyView sampleCatDog.videos [⟨"b", 9⟩, ⟨"a", 7⟩, ⟨"a", 3⟩, ⟨"b", 3⟩] ∧
      (historyView sampleCatDog.videos [⟨"b", 9⟩, ⟨"a", 7⟩, ⟨"a", 3⟩, ⟨"b", 3⟩]).Pairwise
        (fun x y => lastWatched [⟨"b", 9⟩, ⟨"a", 7⟩, ⟨"a", 3⟩, ⟨"b", 3⟩] y.id ≤
          lastWatched [⟨"b", 9⟩, ⟨"a", 7⟩, ⟨"a", 3⟩, ⟨"b", 3⟩] x.id) ∧
      historyView sampleCatDog.videos [⟨"b", 9⟩, ⟨"a", 7⟩, ⟨"a", 3⟩, ⟨"b", 3⟩] =
        [sampleVideo "b" "Dog Video", sampleVideo "a" "Cat Video"] :=
  ⟨by decide,
    (historyView_of_newest_first sampleCatDog.videos [⟨"b", 9⟩, ⟨"a", 7⟩, ⟨"a", 3⟩, ⟨"b", 3⟩]
      (by decide)).2.2.2 [⟨"b", 9⟩, ⟨"a", 7⟩, ⟨"b", 3⟩, ⟨"a", 3⟩] (by decide) (by decide)
      (by decide),
    (historyView_of_newest_first sampleCatDog.videos [⟨"b", 9⟩, ⟨"a", 7⟩, ⟨"a", 3⟩, ⟨"b", 3⟩]
      (by decide)).2.2.1,
    by decide⟩

/-! ## Admin-only delete: theorems -/

/-- C11: a delete control drawn for an admin stays effective after sign-out. The
admin's home grid carries the control; after the sign-out callback (or the
`SIGNED_OUT` notification) nobody is signed in and the admin flag is off, yet
the cards still carry the control and a confirmed click on it sends the delete
request for video `a`. -/
theorem stale_delete_control_after_signOut :
    sampleAdminHome.isAdmin = true ∧ sampleAdminHome.videoGridDelete = true ∧
      (signOutThen sampleAdminHome).user = none ∧
      (signOutThen sampleAdminHome).isAdmin = false ∧
      (signOutThen sampleAdminHome).videoGridDelete = true ∧
      (gridCardClick (signOutThen sampleAdminHome) (sampleVideo "a" "Cat Video") true true).remote
        = [RemoteCall.videoDelete "a"] ∧
      (onAuthStateChange sampleAdminHome "SIGNED_OUT" (.thrown "") (.thrown "")).isAdmin = false ∧
      (gridCardClick (onAuthStateChange sampleAdminHome "SIGNED_OUT" (.thrown "") (.thrown ""))
        (sampleVideo "a" "Cat Video") true true).remote = [RemoteCall.videoDelete "a"] := by
  decide

/-! ## Session: theorems -/

theorem signedOut_signedOut (st : State) : SignedOut (signedOut st) := ⟨rfl, rfl⟩

/-- C12: whatever the state before, `checkUserSession` ends signed out (user
`null`, admin flag `false`) when the session query throws, when it answers with
an error, when its `data` is `null`, when there is no session or no session
user, and when the profile query throws. -/
theorem checkUserSession_failure_signs_out (st : State) :
    (∀ message profile, SignedOut (checkUserSession st (.thrown message) profile)) ∧
      (∀ data message profile,
        SignedOut (checkUserSession st (.fulfilled ⟨data, some message⟩) profile)) ∧
      (∀ error profile, SignedOut (checkUserSession st (.fulfilled ⟨none, error⟩) profile)) ∧
      (∀ error profile,
        SignedOut (checkUserSession st (.fulfilled ⟨some none, error⟩) profile)) ∧
      (∀ error profile,
        SignedOut (checkUserSession st (.fulfilled ⟨some (some ⟨none⟩), error⟩) profile)) ∧
      (∀ session message, SignedOut (checkUserSession st session (.thrown message))) := by
  refine ⟨?_, ?_, ?_, ?_, ?_, ?_⟩
  · intro message profile
    exact signedOut_signedOut st
  · intro data message profile
    cases data <;> exact signedOut_signedOut st
  · intro error profile
    exact signedOut_signedOut st
  · intro error profile
    cases error <;> exact signedOut_signedOut st
  · intro error profile
    cases error <;> exact signedOut_signedOut st
  · intro session message
    unfold checkUserSession
    split
    · exact signedOut_signedOut st
    · split
      · exact signedOut_signedOut st
      · split_ifs
        · exact signedOut_signedOut st
        · split
          · exact signedOut_signedOut st
          · exact signedOut_signedOut st

theorem takeWhile_ne_spec (x : Char) (l : List Char) :
    l.takeWhile (fun c => c != x) = l ∨ l.takeWhile (fun c => c != x) ++ [x] <+: l := by
  induction l with
  | nil => exact Or.inl rfl
  | cons c cs ih =>
    by_cases hc : c = x
    · right
      subst hc
      simp [List.takeWhile_cons]
    · have hp : (c != x) = true := by simpa using hc
      rw [List.takeWhile_cons, hp]
      simp only [if_true]
      rcases ih with h | h
      · left; rw [h]
      · right
        obtain ⟨t, ht⟩ := h
        exact ⟨t, by simp only [List.cons_append]; rw [ht]⟩

theorem localPart_spec (email : String) :
    (localPart email).data <+: email.data ∧ '@' ∉ (localPart email).data ∧
      ((localPart email).data = email.data ∨ (localPart email).data ++ ['@'] <+: email.data) := by
  refine ⟨List.takeWhile_prefix _, ?_, takeWhile_ne_spec '@' email.data⟩
  intro hmem
  have := List.mem_takeWhile_imp hmem
  simp at this

/-- C13, as stated, fails: with no profile row the display name is taken from
the `username` of the session metadata when there is one; the local part of the
e-mail is only the second choice. -/
theorem checkUserSession_fallback_prefers_metadata :
    (checkUserSession sampleCatDog
        (.fulfilled ⟨some (some ⟨some ⟨"u1", "bob@example.org", some "robert"⟩⟩), none⟩)
        (.fulfilled ⟨none, some "no rows"⟩)).user =
        some ⟨"u1", "robert", "bob@example.org"⟩ ∧
      localPart "bob@example.org" = "bob" := by
  decide

/-- C13, amended: for a session with a user and a profile query that answers
without a row, `checkUserSession` sets the user's identifier to the session
user's id, the display name to the metadata `username` when that is a
non-empty string and to the local part of the session e-mail otherwise (the
text before the first `@`), keeps the session e-mail, and sets the admin flag
to `false`. -/
theorem checkUserSession_fallback (st : State) (u : SessionUser) (profileError : Option String) :
    (checkUserSession st (.fulfilled ⟨some (some ⟨some u⟩), none⟩)
        (.fulfilled ⟨none, profileError⟩)).user =
        some ⟨u.id,
          match u.metaUsername with
          | some m => if m = "" then localPart u.email else m
          | none => localPart u.email,
          u.email⟩ ∧
      (checkUserSession st (.fulfilled ⟨some (some ⟨some u⟩), none⟩)
        (.fulfilled ⟨none, profileError⟩)).isAdmin = false ∧
      (localPart u.email).data <+: u.email.data ∧ '@' ∉ (localPart u.email).data ∧
      ((localPart u.email).data = u.email.data ∨
        (localPart u.email).data ++ ['@'] <+: u.email.data) := by
  refine ⟨?_, rfl, localPart_spec u.email⟩
  simp only [checkUserSession, orElse, Option.isSome_none, Bool.false_eq_true, if_false]
  cases hm : u.metaUsername with
  | none => rfl
  | some m =>
    by_cases he : m = "" <;> simp [he]

/-- C14: on a successful sign-up that returns a user, the admin flag is `true`
exactly when the lower-cased derived username (the text of the trimmed e-mail
before its first `@`) starts with `admin`; with the ASCII lower-casing
`Admin_Bob@…` becomes admin and `bob@…` does not. When the sign-up answers
with an error or throws, user and admin flag are unchanged. -/
theorem registerSubmit_admin_flag (toLowerCase : String → String) (st : State)
    (emailValue : String) (u : SignUpUser) :
    ((registerSubmit toLowerCase st emailValue (.fulfilled ⟨some ⟨some u⟩, none⟩)).isAdmin = true ↔
        "admin".data <+: (toLowerCase (localPart (jsTrim emailValue))).data) ∧
      (registerSubmit toLowerCase st emailValue (.fulfilled ⟨some ⟨some u⟩, none⟩)).user =
        some ⟨u.id, localPart (jsTrim emailValue), jsTrim emailValue⟩ ∧
      (registerSubmit asciiLower st " Admin_Bob@example.org " (.fulfilled ⟨some ⟨some u⟩, none⟩)
        ).isAdmin = true ∧
      (registerSubmit asciiLower st "bob@example.org" (.fulfilled ⟨some ⟨some u⟩, none⟩)
        ).isAdmin = false ∧
      (∀ data message,
        (registerSubmit toLowerCase st emailValue (.fulfilled ⟨data, some message⟩)).user = st.user ∧
        (registerSubmit toLowerCase st emailValue (.fulfilled ⟨data, some message⟩)).isAdmin =
          st.isAdmin) ∧
      (∀ message,
        (registerSubmit toLowerCase st emailValue (.thrown message)).user = st.user ∧
        (registerSubmit toLowerCase st emailValue (.thrown message)).isAdmin = st.isAdmin) := by
  refine ⟨?_, rfl, ?_, ?_, ?_, ?_⟩
  · simp only [registerSubmit, alert, startsWith]
    exact List.isPrefixOf_iff_prefix
  · simp only [registerSubmit, alert]
    decide
  · simp only [registerSubmit, alert]
    decide
  · intro data message
    exact ⟨rfl, rfl⟩
  · intro message
    exact ⟨rfl, rfl⟩

/-! ## Stub gateway and start-up: theorems -/

/-- C15: on the stub the auth calls return a promise that resolves to a result
with a non-null error, and subscribing returns a subscription; but
`supabase.from(..)` is itself `noopAsync`, so it returns a promise, and the next
link of every table chain (`select`, `insert`, `delete`) is not a function:
each table chain of the program throws a `TypeError`. -/
theorem stub_table_chains_throw :
    (∀ m ∈ stubAuthMethods,
        evalChain StubVal.proxy [.prop "auth", .call m] = .ok StubVal.promise) ∧
      noopResult.error = some "Supabase SDK not loaded" ∧
      evalChain StubVal.proxy [.prop "auth", .call "onAuthStateChange"] =
        .ok StubVal.subscription ∧
      evalChain StubVal.proxy [.call "from"] = .ok StubVal.promise ∧
      (∀ chain ∈ tableChains, (evalChain StubVal.proxy chain).toBool = false) ∧
      evalChain StubVal.proxy [.call "from", .call "select", .call "order"] =
        .error "TypeError: select is not a function" ∧
      evalChain StubVal.proxy [.call "from", .call "delete", .call "eq"] =
        .error "TypeError: delete is not a function" ∧
      evalChain StubVal.proxy [.call "from", .call "insert"] =
        .error "TypeError: insert is not a function" := by
  decide

/-- C16: with the stub gateway and a URL without parameters, `init` returns
normally, and the state it leaves is the initial one: empty catalog, nobody
signed in, admin flag off, no watching id, home as the current page. -/
theorem init_offline (toLocaleDateString : String → String) (favorites likes : List String) :
    init toLocaleDateString favorites likes stubGateway ⟨none, none⟩ =
        .ok (initialState favorites likes) ∧
      (initialState favorites likes).videos = [] ∧
      (initialState favorites likes).user = none ∧
      (initialState favorites likes).isAdmin = false ∧
      (initialState favorites likes).watchingId = none ∧
      (initialState favorites likes).currentPage = "home" :=
  ⟨rfl, rfl, rfl, rfl, rfl, rfl⟩

/-! ## Favorites, related list, upload: theorems -/

theorem showPage_favorites_signedOut (st : State) (push : Bool) (hu : st.user = none) :
    (showPage st "favorites" push).favGrid = [] ∧
      (showPage st "favorites" push).favEmpty = true := by
  by_cases ht : truthy st.watchingId = true <;> cases push <;>
    simp [showPage, closeWatch, pushState, renderFavorites, hu, ht]

/-- C17: when the gateway returns the favorite rows, the favorites grid is the
catalog filtered, in catalog order, by membership of the id in the returned
list: a sub-list of the catalog that repeats no video the catalog does not
repeat, with the marker shown exactly when it is empty. When nobody is signed
in, `renderFavorites` (and so `showPage('favorites')`) empties the grid and
shows the marker. -/
theorem favorites_view (st : State) (rows : List FavoriteRow) :
    (renderFavoritesThen st (.fulfilled ⟨some rows, none⟩)).favGrid =
        st.videos.filter (fun v => decide (v.id ∈ rows.map (fun f => f.video_id))) ∧
      ((renderFavoritesThen st (.fulfilled ⟨some rows, none⟩)).favGrid).Sublist st.videos ∧
      (∀ w, List.count w (renderFavoritesThen st (.fulfilled ⟨some rows, none⟩)).favGrid ≤
        List.count w st.videos) ∧
      (st.videos.Nodup →
        ((renderFavoritesThen st (.fulfilled ⟨some rows, none⟩)).favGrid).Nodup) ∧
      ((renderFavoritesThen st (.fulfilled ⟨some rows, none⟩)).favEmpty = true ↔
        (renderFavoritesThen st (.fulfilled ⟨some rows, none⟩)).favGrid = []) ∧
      (st.user = none →
        (renderFavorites st).favGrid = [] ∧ (renderFavorites st).favEmpty = true ∧
        (showPage st "favorites" true).favGrid = [] ∧
        (showPage st "favorites" true).favEmpty = true ∧
        (showPage st "favorites" false).favGrid = [] ∧
        (showPage st "favorites" false).favEmpty = true) := by
  have hgrid : (renderFavoritesThen st (.fulfilled ⟨some rows, none⟩)).favGrid =
      st.videos.filter (fun v => decide (v.id ∈ rows.map (fun f => f.video_id))) := rfl
  refine ⟨hgrid, ?_, ?_, ?_, ?_, ?_⟩
  · rw [hgrid]; exact List.filter_sublist _
  · intro w
    rw [hgrid]
    exact (List.filter_sublist _).count_le w
  · intro hnodup
    rw [hgrid]
    exact hnodup.filter _
  · show (List.isEmpty _ = true ↔ _)
    rw [List.isEmpty_iff]
    rfl
  · intro hu
    have hfav : renderFavorites st = { st with favEmpty := true, favGrid := [] } := by
      simp [renderFavorites, hu]
    have hshow := fun push => showPage_favorites_signedOut st push hu
    exact ⟨by rw [hfav], by rw [hfav], (hshow true).1, (hshow true).2, (hshow false).1,
      (hshow false).2⟩

/-- Witness of C17: the signed-out sample state. -/
theorem favorites_view_witness :
    sampleCatDog.user = none ∧
      (showPage sampleCatDog "favorites" true).favGrid = [] ∧
      (showPage sampleCatDog "favorites" true).favEmpty = true :=
  ⟨rfl, ((favorites_view sampleCatDog []).2.2.2.2.2 rfl).2.2.1,
    ((favorites_view sampleCatDog []).2.2.2.2.2 rfl).2.2.2.1⟩

theorem filter_ne_mutateFirst (id : String) (f : Video → Video) (hf : ∀ v, (f v).id = v.id)
    (videos : List Video) :
    (mutateFirst id f videos).filter (fun v => v.id != id) =
      videos.filter (fun v => v.id != id) := by
  induction videos with
  | nil => rfl
  | cons x xs ih =>
    by_cases hx : x.id = id
    · simp [mutateFirst, hx, hf, List.filter_cons]
    · simp [mutateFirst, hx, List.filter_cons, ih]

theorem showPage_relatedVideos (st : State) (name : String) (push : Bool) :
    (showPage st name push).relatedVideos = st.relatedVideos := by
  unfold showPage closeWatch pushState renderVideoGrid renderFavorites
  simp only [Bool.false_eq_true, if_false]
  split_ifs <;> rfl

/-- C18: the related list drawn for `currentId` is the catalog without the
videos of that id, in catalog order: no video of that id is in it and every
other video occurs as often as in the catalog. The list `openWatch` draws for a
catalog video is that list of the catalog it was given. -/
theorem renderRelated_others (st : State) (currentId : String) :
    (renderRelated st currentId).relatedVideos =
        st.videos.filter (fun v => decide (v.id ≠ currentId)) ∧
      (∀ w ∈ (renderRelated st currentId).relatedVideos, w.id ≠ currentId) ∧
      (∀ w, w.id ≠ currentId →
        List.count w (renderRelated st currentId).relatedVideos = List.count w st.videos) ∧
      ((renderRelated st currentId).relatedVideos).Sublist st.videos ∧
      (∀ push, (∃ v ∈ st.videos, v.id = currentId) →
        (openWatch st currentId push).relatedVideos =
          st.videos.filter (fun v => decide (v.id ≠ currentId))) := by
  have hrel : (renderRelated st currentId).relatedVideos =
      st.videos.filter (fun v => v.id != currentId) := rfl
  have hpred : (fun v : Video => v.id != currentId) = (fun v => decide (v.id ≠ currentId)) := by
    funext v
    by_cases h : v.id = currentId <;> simp [h]
  refine ⟨by rw [hrel, hpred], ?_, ?_, ?_, ?_⟩
  · intro w hw
    rw [hrel] at hw
    simpa using (List.mem_filter.mp hw).2
  · intro w hne
    rw [hrel]
    exact List.count_filter (by simpa using hne)
  · rw [hrel]; exact List.filter_sublist _
  · intro push hin
    have hsome : (findVideo st.videos currentId).isSome = true :=
      (findVideo_isSome_iff _ _).mpr hin
    obtain ⟨v, hv⟩ := Option.isSome_iff_exists.mp hsome
    have hopen : (openWatch st currentId push).relatedVideos =
        (mutateFirst currentId incViews st.videos).filter (fun v => v.id != currentId) := by
      unfold openWatch
      rw [hv]
      cases push
      · simp only [Bool.false_eq_true, if_false]
        rw [showPage_relatedVideos]
        simp only [renderRelated, addToHistory, others]
        cases st.user <;> rfl
      · simp only [if_true, pushState]
        rw [showPage_relatedVideos]
        simp only [renderRelated, addToHistory, others]
        cases st.user <;> rfl
    rw [hopen, filter_ne_mutateFirst currentId incViews (fun _ => rfl), hpred]

/-- Witness of C18: opening video `a` of the two-video catalog. -/
theorem renderRelated_others_witness :
    (∃ v ∈ sampleCatDog.videos, v.id = "a") ∧
      (openWatch sampleCatDog "a" true).relatedVideos = [sampleVideo "b" "Dog Video"] ∧
      List.count (sampleVideo "b" "Dog Video") (renderRelated sampleCatDog "a").relatedVideos =
        List.count (sampleVideo "b" "Dog Video") sampleCatDog.videos :=
  ⟨by decide,
    ((renderRelated_others sampleCatDog "a").2.2.2.2 true (by decide)).trans (by decide),
    (renderRelated_others sampleCatDog "a").2.2.1 (sampleVideo "b" "Dog Video") (by decide)⟩

theorem showPage_home_closes (st : State) (push : Bool) :
    truthy (showPage st "home" push).watchingId = false ∧
      (st.watchingId ≠ some "" → (showPage st "home" push).watchingId = none) := by
  cases hw : st.watchingId with
  | none =>
    cases push <;>
      simp [showPage, closeWatch, pushState, renderVideoGrid, hw, truthy]
  | some id =>
    by_cases hid : id = ""
    · subst hid
      cases push <;>
        simp [showPage, closeWatch, pushState, renderVideoGrid, hw, truthy]
    · cases push <;>
        simp [showPage, closeWatch, pushState, renderVideoGrid, hw, truthy, hid]

theorem logAdminAction_ite_videos (st : State) (c : Prop) [Decidable c]
    (type description : String) :
    (if c then logAdminAction st type description else st).videos = st.videos := by
  split_ifs
  · exact logAdminAction_videos st type description
  · rfl

theorem logAdminAction_ite_watchingId (st : State) (c : Prop) [Decidable c]
    (type description : String) :
    (if c then logAdminAction st type description else st).watchingId = st.watchingId := by
  split_ifs
  · exact logAdminAction_watchingId st type description
  · rfl

theorem alert_ite (st : State) (c : Prop) [Decidable c] (message : String) :
    (if c then alert st message else st).videos = st.videos ∧
      (if c then alert st message else st).currentPage = st.currentPage ∧
      (if c then alert st message else st).watchingId = st.watchingId := by
  split_ifs <;> exact ⟨rfl, rfl, rfl⟩

/-- C19: for a title that is non-empty after trimming and a selected file, the
upload listener leaves the catalog equal to the new video (trimmed title, the
object URL as source, 0 views, 0 likes) followed by the previous catalog, with
home as the current page and no watching id that counts as set; the watching
id is `null` unless it was the empty string before. -/
theorem uploadSubmit_prepends (st : State) (titleValue file objectUrl : String) (now : Nat)
    (htitle : jsTrim titleValue ≠ "") :
    (uploadSubmit st titleValue (some file) objectUrl now).videos =
        { id := "u" ++ toString now, title := jsTrim titleValue, src := objectUrl,
          thumbnail := none, duration := "??:??", views := 0, date := "just now",
          likes := JsVal.num 0 } :: st.videos ∧
      (uploadSubmit st titleValue (some file) objectUrl now).currentPage = "home" ∧
      truthy (uploadSubmit st titleValue (some file) objectUrl now).watchingId = false ∧
      (st.watchingId ≠ some "" →
        (uploadSubmit st titleValue (some file) objectUrl now).watchingId = none) := by
  unfold uploadSubmit
  simp only [htitle, false_or, reduceCtorEq, if_false]
  refine ⟨?_, ?_, ?_, ?_⟩
  · rw [(alert_ite _ _ _).1, showPage_videos, logAdminAction_ite_videos]
  · rw [(alert_ite _ _ _).2.1, showPage_currentPage]
  · rw [(alert_ite _ _ _).2.2]
    exact (showPage_home_closes _ true).1
  · intro hw
    rw [(alert_ite _ _ _).2.2]
    apply (showPage_home_closes _ true).2
    rw [logAdminAction_ite_watchingId]
    exact hw

/-- Witness of C19: an upload by the sample admin while video `a` is open. -/
theorem uploadSubmit_prepends_witness :
    jsTrim " Bird Video " ≠ "" ∧
      (uploadSubmit (openWatch sampleAdmin "a" true) " Bird Video " (some "bird.mp4")
          "blob:1" 5).videos =
        { id := "u5", title := "Bird Video", src := "blob:1", thumbnail := none,
          duration := "??:??", views := 0, date := "just now", likes := JsVal.num 0 } ::
          (openWatch sampleAdmin "a" true).videos ∧
      (uploadSubmit (openWatch sampleAdmin "a" true) " Bird Video " (some "bird.mp4")
          "blob:1" 5).watchingId = none :=
  ⟨by decide,
    (uploadSubmit_prepends (openWatch sampleAdmin "a" true) " Bird Video " "bird.mp4" "blob:1" 5
      (by decide)).1.trans (by decide),
    (uploadSubmit_prepends (openWatch sampleAdmin "a" true) " Bird Video " "bird.mp4" "blob:1" 5
      (by decide)).2.2.2 (by decide)⟩

/-- C20: after start-up with the like of video `a` in the local store and `a`
in the remote listing, the like counter of `a` is the boolean `true`, not an
integer: the mapping of `init` copies the stored flag into the counter. -/
theorem init_like_counter_boolean (toLocaleDateString : String → String) :
    (init toLocaleDateString [] ["a"] sampleGateway ⟨none, none⟩).map
        (fun st => st.videos.map (fun v => (v.id, v.likes))) =
        .ok [("a", JsVal.bool true)] ∧
      (∀ n : Int, JsVal.bool true ≠ JsVal.num n) := by
  refine ⟨rfl, ?_⟩
  intro n h
  cases h

/-! ## Invariants of the transition system: lemmas -/

theorem showPage_session (st : State) (name : String) (push : Bool) :
    (showPage st name push).user = st.user ∧ (showPage st name push).isAdmin = st.isAdmin := by
  unfold showPage closeWatch pushState renderVideoGrid renderFavorites
  simp only [Bool.false_eq_true, if_false]
  split_ifs <;> exact ⟨rfl, rfl⟩

theorem showPage_watchingId (st : State) (name : String) (push : Bool) :
    (showPage st name push).watchingId =
      if name ≠ "watch" ∧ truthy st.watchingId = true then none else st.watchingId := by
  unfold showPage closeWatch pushState renderVideoGrid renderFavorites
  simp only [Bool.false_eq_true, if_false]
  split_ifs <;> rfl

theorem closeWatch_session (st : State) (push : Bool) :
    (closeWatch st push).user = st.user ∧ (closeWatch st push).isAdmin = st.isAdmin := by
  unfold closeWatch pushState
  split_ifs <;> exact ⟨rfl, rfl⟩

theorem closeWatch_currentPage (st : State) (push : Bool) :
    (closeWatch st push).currentPage = st.currentPage := by
  unfold closeWatch pushState
  split_ifs <;> rfl

theorem addToHistory_fields (st : State) (id : String) :
    (addToHistory st id).user = st.user ∧ (addToHistory st id).isAdmin = st.isAdmin ∧
      (addToHistory st id).watchingId = st.watchingId ∧
      (addToHistory st id).videos = st.videos := by
  unfold addToHistory
  split <;> exact ⟨rfl, rfl, rfl, rfl⟩

theorem openWatch_fields (st : State) (id : String) (push : Bool) (v : Video)
    (hv : findVideo st.videos id = some v) :
    (openWatch st id push).user = st.user ∧ (openWatch st id push).isAdmin = st.isAdmin ∧
      (openWatch st id push).currentPage = "watch" ∧
      (openWatch st id push).watchingId = some id ∧
      (openWatch st id push).videos = mutateFirst id incViews st.videos := by
  have hA := addToHistory_fields { st with watchingId := some id } id
  unfold openWatch
  rw [hv]
  cases push
  · simp only [Bool.false_eq_true, if_false]
    refine ⟨?_, ?_, showPage_currentPage _ _ _, ?_, ?_⟩
    · rw [(showPage_session _ _ _).1]; exact hA.1
    · rw [(showPage_session _ _ _).2]; exact hA.2.1
    · rw [showPage_watchingId]; simp only [ne_eq, not_true_eq_false, false_and, if_false]
      exact hA.2.2.1
    · rw [showPage_videos]; exact congrArg (mutateFirst id incViews) hA.2.2.2
  · simp only [if_true, pushState]
    refine ⟨?_, ?_, showPage_currentPage _ _ _, ?_, ?_⟩
    · rw [(showPage_session _ _ _).1]; exact hA.1
    · rw [(showPage_session _ _ _).2]; exact hA.2.1
    · rw [showPage_watchingId]; simp only [ne_eq, not_true_eq_false, false_and, if_false]
      exact hA.2.2.1
    · rw [showPage_videos]; exact congrArg (mutateFirst id incViews) hA.2.2.2

theorem logAdminAction_session (st : State) (type description : String) :
    (logAdminAction st type description).user = st.user ∧
      (logAdminAction st type description).isAdmin = st.isAdmin := by
  unfold logAdminAction
  split
  · exact ⟨rfl, rfl⟩
  · split_ifs <;> exact ⟨rfl, rfl⟩

theorem mutateFirst_ids (id : String) (f : Video → Video) (hf : ∀ v, (f v).id = v.id)
    (videos : List Video) (P : String → Prop) (h : ∀ v ∈ videos, P v.id) :
    ∀ v ∈ mutateFirst id f videos, P v.id := by
  induction videos with
  | nil => intro v hv; simp [mutateFirst] at hv
  | cons x xs ih =>
    intro v hv
    by_cases hx : x.id = id
    · simp only [mutateFirst, hx, if_true, List.mem_cons] at hv
      rcases hv with rfl | hv
      · rw [hf]; exact h x (List.mem_cons_self _ _)
      · exact h v (List.mem_cons_of_mem _ hv)
    · simp only [mutateFirst, hx, if_false, List.mem_cons] at hv
      rcases hv with rfl | hv
      · exact h v (List.mem_cons_self _ _)
      · exact ih (fun w hw => h w (List.mem_cons_of_mem _ hw)) v hv

theorem watchInv_mk (st : State) (hids : ∀ v ∈ st.videos, v.id ≠ "")
    (hw : ∀ id, st.watchingId = some id → id ≠ "" ∧ st.currentPage = "watch") : WatchInv st :=
  ⟨hids, hw⟩

theorem watchInv_of_eq (a b : State) (hv : a.videos = b.videos)
    (hw : a.watchingId = b.watchingId) (hc : a.currentPage = b.currentPage)
    (h : WatchInv b) : WatchInv a := by
  unfold WatchInv at *
  rw [hv, hw, hc]
  exact h

theorem adminInv_of_eq (a b : State) (hu : a.user = b.user) (hadm : a.isAdmin = b.isAdmin)
    (h : AdminInv b) : AdminInv a := by
  unfold AdminInv at *
  rw [hu, hadm]
  exact h

theorem showPage_watchInv (st : State) (name : String) (push : Bool) (h : WatchInv st) :
    WatchInv (showPage st name push) := by
  refine ⟨?_, ?_⟩
  · rw [showPage_videos]; exact h.1
  · intro id hid
    rw [showPage_watchingId] at hid
    rw [showPage_currentPage]
    split_ifs at hid with hc
    obtain ⟨hne, hcur⟩ := h.2 id hid
    refine ⟨hne, ?_⟩
    by_contra hname
    apply hc
    refine ⟨hname, ?_⟩
    rw [hid]
    simp [truthy, hne]

theorem closeWatch_watchInv (st : State) (push : Bool) (h : WatchInv st) :
    WatchInv (closeWatch st push) := by
  refine ⟨?_, ?_⟩
  · rw [closeWatch_videos]; exact h.1
  · intro id hid
    rw [closeWatch_watchingId] at hid
    cases hid

theorem openWatch_watchInv (st : State) (id : String) (push : Bool) (h : WatchInv st) :
    WatchInv (openWatch st id push) := by
  cases hv : findVideo st.videos id with
  | none =>
    have : openWatch st id push = st := by simp [openWatch, hv]
    rw [this]; exact h
  | some v =>
    obtain ⟨_, _, hcur, hwatch, hvideos⟩ := openWatch_fields st id push v hv
    refine ⟨?_, ?_⟩
    · rw [hvideos]
      exact mutateFirst_ids id incViews (fun _ => rfl) st.videos (fun x => x ≠ "") h.1
    · intro id2 hid2
      rw [hwatch] at hid2
      cases hid2
      refine ⟨?_, hcur⟩
      rw [← findVideo_some_id hv]
      exact h.1 v (findVideo_some_mem hv)

theorem openWatch_adminInv (st : State) (id : String) (push : Bool) (h : AdminInv st) :
    AdminInv (openWatch st id push) := by
  cases hv : findVideo st.videos id with
  | none =>
    have : openWatch st id push = st := by simp [openWatch, hv]
    rw [this]; exact h
  | some v =>
    obtain ⟨hu, hadm, _⟩ := openWatch_fields st id push v hv
    exact adminInv_of_eq _ _ hu hadm h

theorem showPage_adminInv (st : State) (name : String) (push : Bool) (h : AdminInv st) :
    AdminInv (showPage st name push) :=
  adminInv_of_eq _ _ (showPage_session st name push).1 (showPage_session st name push).2 h

theorem closeWatch_adminInv (st : State) (push : Bool) (h : AdminInv st) :
    AdminInv (closeWatch st push) :=
  adminInv_of_eq _ _ (closeWatch_session st push).1 (closeWatch_session st push).2 h

theorem alert_fields (st : State) (message : String) :
    (alert st message).videos = st.videos ∧ (alert st message).watchingId = st.watchingId ∧
      (alert st message).currentPage = st.currentPage ∧ (alert st message).user = st.user ∧
      (alert st message).isAdmin = st.isAdmin :=
  ⟨rfl, rfl, rfl, rfl, rfl⟩

theorem checkUserSession_nav (st : State) (session : Awaited SessionAnswer)
    (profile : Awaited ProfileAnswer) :
    (checkUserSession st session profile).videos = st.videos ∧
      (checkUserSession st session profile).watchingId = st.watchingId ∧
      (checkUserSession st session profile).currentPage = st.currentPage := by
  unfold checkUserSession signedOut
  repeat' split
  all_goals exact ⟨rfl, rfl, rfl⟩

theorem checkUserSession_adminInv (st : State) (session : Awaited SessionAnswer)
    (profile : Awaited ProfileAnswer) : AdminInv (checkUserSession st session profile) := by
  unfold checkUserSession signedOut AdminInv
  repeat' split
  all_goals intro h
  all_goals first | rfl | cases h

theorem signInSubmit_nav (st : State) (answer : Awaited SignInAnswer)
    (profile : Awaited ProfileAnswer) :
    (signInSubmit st answer profile).videos = st.videos ∧
      (signInSubmit st answer profile).watchingId = st.watchingId ∧
      (signInSubmit st answer profile).currentPage = st.currentPage := by
  unfold signInSubmit alert
  repeat' split
  all_goals exact ⟨rfl, rfl, rfl⟩

theorem signInSubmit_adminInv (st : State) (answer : Awaited SignInAnswer)
    (profile : Awaited ProfileAnswer) (h : AdminInv st) :
    AdminInv (signInSubmit st answer profile) := by
  unfold signInSubmit alert AdminInv
  repeat' split
  all_goals intro hu
  all_goals first | exact h hu | cases hu

theorem registerSubmit_nav (toLowerCase : String → String) (st : State) (emailValue : String)
    (answer : Awaited SignUpAnswer) :
    (registerSubmit toLowerCase st emailValue answer).videos = st.videos ∧
      (registerSubmit toLowerCase st emailValue answer).watchingId = st.watchingId ∧
      (registerSubmit toLowerCase st emailValue answer).currentPage = st.currentPage := by
  unfold registerSubmit alert
  repeat' split
  all_goals exact ⟨rfl, rfl, rfl⟩

theorem registerSubmit_adminInv (toLowerCase : String → String) (st : State)
    (emailValue : String) (answer : Awaited SignUpAnswer) (h : AdminInv st) :
    AdminInv (registerSubmit toLowerCase st emailValue answer) := by
  unfold registerSubmit alert AdminInv
  repeat' split
  all_goals intro hu
  all_goals first | exact h hu | cases hu

theorem signOutThen_watchInv (st : State) (h : WatchInv st) : WatchInv (signOutThen st) := by
  unfold signOutThen
  have hs : WatchInv (signedOut st) := watchInv_of_eq _ st rfl rfl rfl h
  simp only []
  split_ifs
  · exact showPage_watchInv _ _ _ hs
  · exact hs

theorem signOutThen_adminInv (st : State) : AdminInv (signOutThen st) := by
  unfold signOutThen
  have hs : AdminInv (signedOut st) := fun _ => rfl
  simp only []
  split_ifs
  · exact showPage_adminInv _ _ _ hs
  · exact hs

theorem onAuthStateChange_watchInv (st : State) (event : String)
    (session : Awaited SessionAnswer) (profile : Awaited ProfileAnswer) (h : WatchInv st) :
    WatchInv (onAuthStateChange st event session profile) := by
  unfold onAuthStateChange
  split_ifs
  · exact watchInv_of_eq _ st rfl rfl rfl h
  · obtain ⟨h1, h2, h3⟩ := checkUserSession_nav st session profile
    exact watchInv_of_eq _ st h1 h2 h3 h
  · exact h

theorem onAuthStateChange_adminInv (st : State) (event : String)
    (session : Awaited SessionAnswer) (profile : Awaited ProfileAnswer) (h : AdminInv st) :
    AdminInv (onAuthStateChange st event session profile) := by
  unfold onAuthStateChange
  split_ifs
  · exact fun _ => rfl
  · exact checkUserSession_adminInv st session profile
  · exact h

theorem onPopState_watchInv (st : State) (q : Query) (h : WatchInv st) :
    WatchInv (onPopState st q) := by
  unfold onPopState
  split
  · split_ifs
    · exact openWatch_watchInv _ _ _ h
    · exact showPage_watchInv _ _ _ h
  · exact showPage_watchInv _ _ _ h

theorem onPopState_adminInv (st : State) (q : Query) (h : AdminInv st) :
    AdminInv (onPopState st q) := by
  unfold onPopState
  split
  · split_ifs
    · exact openWatch_adminInv _ _ _ h
    · exact showPage_adminInv _ _ _ h
  · exact showPage_adminInv _ _ _ h

theorem searchInput_watchInv (toLowerCase : String → String) (st : State) (value : String)
    (h : WatchInv st) : WatchInv (searchInput toLowerCase st value) := by
  unfold searchInput renderVideoGrid
  simp only []
  split_ifs
  · exact watchInv_of_eq _ _ rfl rfl rfl (showPage_watchInv st "home" true h)
  · exact watchInv_of_eq _ _ rfl rfl rfl h

theorem searchInput_adminInv (toLowerCase : String → String) (st : State) (value : String)
    (h : AdminInv st) : AdminInv (searchInput toLowerCase st value) := by
  unfold searchInput renderVideoGrid
  simp only []
  split_ifs
  · exact adminInv_of_eq _ _ rfl rfl (showPage_adminInv st "home" true h)
  · exact adminInv_of_eq _ _ rfl rfl h

theorem upload_id_ne_empty (now : Nat) : "u" ++ toString now ≠ "" := by
  intro h
  have := congrArg String.length h
  simp only [String.length_append] at this
  have hu : "u".length = 1 := by decide
  rw [hu] at this
  have h0 : "".length = 0 := by decide
  omega

theorem logAdminAction_watchInv (st : State) (type description : String) (h : WatchInv st) :
    WatchInv (logAdminAction st type description) :=
  watchInv_of_eq _ st (logAdminAction_videos _ _ _) (logAdminAction_watchingId _ _ _)
    (logAdminAction_currentPage _ _ _) h

theorem logAdminAction_adminInv (st : State) (type description : String) (h : AdminInv st) :
    AdminInv (logAdminAction st type description) :=
  adminInv_of_eq _ st (logAdminAction_session _ _ _).1 (logAdminAction_session _ _ _).2 h

theorem ite_alert_watchInv (st : State) (c : Prop) [Decidable c] (message : String)
    (h : WatchInv st) : WatchInv (if c then alert st message else st) := by
  split_ifs
  · exact watchInv_of_eq _ st rfl rfl rfl h
  · exact h

theorem ite_alert_adminInv (st : State) (c : Prop) [Decidable c] (message : String)
    (h : AdminInv st) : AdminInv (if c then alert st message else st) := by
  split_ifs
  · exact adminInv_of_eq _ st rfl rfl h
  · exact h

theorem ite_logAdminAction_watchInv (st : State) (c : Prop) [Decidable c]
    (type description : String) (h : WatchInv st) :
    WatchInv (if c then logAdminAction st type description else st) := by
  split_ifs
  · exact logAdminAction_watchInv _ _ _ h
  · exact h

theorem ite_logAdminAction_adminInv (st : State) (c : Prop) [Decidable c]
    (type description : String) (h : AdminInv st) :
    AdminInv (if c then logAdminAction st type description else st) := by
  split_ifs
  · exact logAdminAction_adminInv _ _ _ h
  · exact h

theorem uploadSubmit_watchInv (st : State) (titleValue : String) (file : Option String)
    (objectUrl : String) (now : Nat) (h : WatchInv st) :
    WatchInv (uploadSubmit st titleValue file objectUrl now) := by
  by_cases hbad : jsTrim titleValue = "" ∨ file = none
  · simp only [uploadSubmit, hbad, if_true]
    exact watchInv_of_eq _ st rfl rfl rfl h
  · simp only [uploadSubmit, hbad, if_false]
    apply ite_alert_watchInv
    apply showPage_watchInv
    apply ite_logAdminAction_watchInv
    refine ⟨?_, h.2⟩
    intro v hv
    rcases List.mem_cons.mp hv with rfl | hv
    · exact upload_id_ne_empty now
    · exact h.1 v hv

theorem uploadSubmit_adminInv (st : State) (titleValue : String) (file : Option String)
    (objectUrl : String) (now : Nat) (h : AdminInv st) :
    AdminInv (uploadSubmit st titleValue file objectUrl now) := by
  by_cases hbad : jsTrim titleValue = "" ∨ file = none
  · simp only [uploadSubmit, hbad, if_true]
    exact adminInv_of_eq _ st rfl rfl h
  · simp only [uploadSubmit, hbad, if_false]
    apply ite_alert_adminInv
    apply showPage_adminInv
    apply ite_logAdminAction_adminInv
    exact h

theorem gridCardClick_watchInv (st : State) (v : Video) (atDelete confirmed : Bool)
    (h : WatchInv st) : WatchInv (gridCardClick st v atDelete confirmed) := by
  unfold gridCardClick cardClick
  split_ifs
  · exact watchInv_of_eq _ st rfl rfl rfl h
  · exact h
  · exact openWatch_watchInv _ _ _ h

theorem gridCardClick_adminInv (st : State) (v : Video) (atDelete confirmed : Bool)
    (h : AdminInv st) : AdminInv (gridCardClick st v atDelete confirmed) := by
  unfold gridCardClick cardClick
  split_ifs
  · exact adminInv_of_eq _ st rfl rfl h
  · exact h
  · exact openWatch_adminInv _ _ _ h

theorem deleteThen_watchInv (st : State) (v : Video) (error : Option String)
    (h : WatchInv st) : WatchInv (deleteThen st v error) := by
  cases error with
  | some message => exact watchInv_of_eq _ st rfl rfl rfl h
  | none =>
    have h1 : WatchInv { st with videos := st.videos.filter (fun vid => vid.id != v.id) } :=
      ⟨fun w hw => h.1 w (List.mem_filter.mp hw).1, h.2⟩
    have h2 := showPage_watchInv _
      (logAdminAction { st with videos := st.videos.filter (fun vid => vid.id != v.id) }
        "delete" ("Deleted video: " ++ v.title)).currentPage true
      (logAdminAction_watchInv _ "delete" ("Deleted video: " ++ v.title) h1)
    simp only [deleteThen]
    split_ifs
    · exact closeWatch_watchInv _ _ h2
    · exact h2

theorem deleteThen_adminInv (st : State) (v : Video) (error : Option String)
    (h : AdminInv st) : AdminInv (deleteThen st v error) := by
  cases error with
  | some message => exact adminInv_of_eq _ st rfl rfl h
  | none =>
    have h1 : AdminInv { st with videos := st.videos.filter (fun vid => vid.id != v.id) } := h
    have h2 := showPage_adminInv _
      (logAdminAction { st with videos := st.videos.filter (fun vid => vid.id != v.id) }
        "delete" ("Deleted video: " ++ v.title)).currentPage true
      (logAdminAction_adminInv _ "delete" ("Deleted video: " ++ v.title) h1)
    simp only [deleteThen]
    split_ifs
    · exact closeWatch_adminInv _ _ h2
    · exact h2

theorem likeClick_watchInv (st : State) (h : WatchInv st) : WatchInv (likeClick st) := by
  unfold likeClick
  repeat' split
  all_goals first
    | exact h
    | exact ⟨mutateFirst_ids _ decLikes (fun _ => rfl) st.videos (fun x => x ≠ "") h.1, h.2⟩
    | exact ⟨mutateFirst_ids _ incLikes (fun _ => rfl) st.videos (fun x => x ≠ "") h.1, h.2⟩

theorem likeClick_adminInv (st : State) (h : AdminInv st) : AdminInv (likeClick st) := by
  unfold likeClick
  repeat' split
  all_goals exact h

theorem renderFavoritesThen_watchInv (st : State) (answer : Awaited FavoritesAnswer)
    (h : WatchInv st) : WatchInv (renderFavoritesThen st answer) := by
  unfold renderFavoritesThen
  repeat' split
  all_goals exact h

theorem renderFavoritesThen_adminInv (st : State) (answer : Awaited FavoritesAnswer)
    (h : AdminInv st) : AdminInv (renderFavoritesThen st answer) := by
  unfold renderFavoritesThen
  repeat' split
  all_goals exact h

theorem step_watchInv (toLowerCase : String → String) (st : State) (a : Action)
    (h : WatchInv st) : WatchInv (step toLowerCase st a) := by
  cases a with
  | navigate name push => exact showPage_watchInv _ _ _ h
  | openWatch id push => exact openWatch_watchInv _ _ _ h
  | closeWatch push => exact closeWatch_watchInv _ _ h
  | popState q => exact onPopState_watchInv _ _ h
  | search value => exact searchInput_watchInv _ _ _ h
  | upload titleValue file objectUrl now => exact uploadSubmit_watchInv _ _ _ _ _ h
  | cardClick v atDelete confirmed => exact gridCardClick_watchInv _ _ _ _ h
  | deleteThen v error => exact deleteThen_watchInv _ _ _ h
  | like => exact likeClick_watchInv _ h
  | favoritesThen answer => exact renderFavoritesThen_watchInv _ _ h
  | checkSession session profile =>
    obtain ⟨h1, h2, h3⟩ := checkUserSession_nav st session profile
    exact watchInv_of_eq _ st h1 h2 h3 h
  | signIn answer profile =>
    obtain ⟨h1, h2, h3⟩ := signInSubmit_nav st answer profile
    exact watchInv_of_eq _ st h1 h2 h3 h
  | register emailValue answer =>
    obtain ⟨h1, h2, h3⟩ := registerSubmit_nav toLowerCase st emailValue answer
    exact watchInv_of_eq _ st h1 h2 h3 h
  | signOut => exact signOutThen_watchInv _ h
  | authChange event session profile => exact onAuthStateChange_watchInv _ _ _ _ h

theorem step_adminInv (toLowerCase : String → String) (st : State) (a : Action)
    (h : AdminInv st) : AdminInv (step toLowerCase st a) := by
  cases a with
  | navigate name push => exact showPage_adminInv _ _ _ h
  | openWatch id push => exact openWatch_adminInv _ _ _ h
  | closeWatch push => exact closeWatch_adminInv _ _ h
  | popState q => exact onPopState_adminInv _ _ h
  | search value => exact searchInput_adminInv _ _ _ h
  | upload titleValue file objectUrl now => exact uploadSubmit_adminInv _ _ _ _ _ h
  | cardClick v atDelete confirmed => exact gridCardClick_adminInv _ _ _ _ h
  | deleteThen v error => exact deleteThen_adminInv _ _ _ h
  | like => exact likeClick_adminInv _ h
  | favoritesThen answer => exact renderFavoritesThen_adminInv _ _ h
  | checkSession session profile => exact checkUserSession_adminInv _ _ _
  | signIn answer profile => exact signInSubmit_adminInv _ _ _ h
  | register emailValue answer => exact registerSubmit_adminInv _ _ _ _ h
  | signOut => exact signOutThen_adminInv _
  | authChange event session profile => exact onAuthStateChange_adminInv _ _ _ _ h

theorem run_watchInv (toLowerCase : String → String) (actions : List Action) :
    ∀ st, WatchInv st → WatchInv (run toLowerCase st actions) := by
  induction actions with
  | nil => intro st h; exact h
  | cons a rest ih =>
    intro st h
    exact ih _ (step_watchInv toLowerCase st a h)

theorem run_adminInv (toLowerCase : String → String) (actions : List Action) :
    ∀ st, AdminInv st → AdminInv (run toLowerCase st actions) := by
  induction actions with
  | nil => intro st h; exact h
  | cons a rest ih =>
    intro st h
    exact ih _ (step_adminInv toLowerCase st a h)

theorem fetchVideos_fields (toLocaleDateString : String → String) (st : State)
    (answer : Awaited VideosAnswer) :
    (fetchVideos toLocaleDateString st answer).watchingId = st.watchingId ∧
      (fetchVideos toLocaleDateString st answer).currentPage = st.currentPage ∧
      (fetchVideos toLocaleDateString st answer).user = st.user ∧
      (fetchVideos toLocaleDateString st answer).isAdmin = st.isAdmin := by
  unfold fetchVideos
  simp only []
  repeat' split
  all_goals exact ⟨rfl, rfl, rfl, rfl⟩

theorem fetchVideos_ids (toLocaleDateString : String → String) (st : State)
    (answer : Awaited VideosAnswer)
    (hrows : ∀ a rows, answer = .fulfilled a → a.data = some rows → ∀ r ∈ rows, r.id ≠ "") :
    ∀ v ∈ (fetchVideos toLocaleDateString st answer).videos, v.id ≠ "" := by
  cases answer with
  | thrown message => intro v hv; simp [fetchVideos] at hv
  | fulfilled a =>
    cases hd : a.data with
    | none =>
      intro v hv
      simp only [fetchVideos, hd] at hv
      split_ifs at hv <;> simp at hv
    | some rows =>
      intro v hv
      simp only [fetchVideos, hd] at hv
      split_ifs at hv
      · simp at hv
      · simp at hv
      · obtain ⟨r, hr, rfl⟩ := List.mem_map.mp hv
        exact hrows a rows rfl hd r hr

theorem init_invariants (toLocaleDateString : String → String) (favorites likes : List String)
    (gw : Gateway) (q : Query) (s0 : State)
    (hinit : init toLocaleDateString favorites likes gw q = .ok s0) :
    AdminInv s0 ∧
      ((∀ a rows, gw.videos = .fulfilled a → a.data = some rows → ∀ r ∈ rows, r.id ≠ "") →
        WatchInv s0) := by
  have hsess := checkUserSession_adminInv (initialState favorites likes) gw.session gw.profile
  have hnav := checkUserSession_nav (initialState favorites likes) gw.session gw.profile
  have hf := fetchVideos_fields toLocaleDateString
    (checkUserSession (initialState favorites likes) gw.session gw.profile) gw.videos
  have hadm : AdminInv (fetchVideos toLocaleDateString
      (checkUserSession (initialState favorites likes) gw.session gw.profile) gw.videos) :=
    adminInv_of_eq _ _ hf.2.2.1 hf.2.2.2 hsess
  have hwatch : (∀ a rows, gw.videos = .fulfilled a → a.data = some rows →
      ∀ r ∈ rows, r.id ≠ "") → WatchInv (fetchVideos toLocaleDateString
      (checkUserSession (initialState favorites likes) gw.session gw.profile) gw.videos) := by
    intro hrows
    refine ⟨fetchVideos_ids _ _ _ hrows, ?_⟩
    intro id hid
    rw [hf.1, hnav.2.1] at hid
    cases hid
  unfold init at hinit
  simp only [] at hinit
  cases hsub : gw.subscribe with
  | thrown message => rw [hsub] at hinit; cases hinit
  | fulfilled u =>
    rw [hsub] at hinit
    simp only [Except.ok.injEq] at hinit
    subst hinit
    cases hq : q.v with
    | none =>
      exact ⟨showPage_adminInv _ _ _ hadm, fun hrows => showPage_watchInv _ _ _ (hwatch hrows)⟩
    | some vParam =>
      simp only []
      split_ifs
      · exact ⟨openWatch_adminInv _ _ _ (showPage_adminInv _ _ _ hadm),
          fun hrows => openWatch_watchInv _ _ _ (showPage_watchInv _ _ _ (hwatch hrows))⟩
      · exact ⟨showPage_adminInv _ _ _ hadm,
          fun hrows => showPage_watchInv _ _ _ (hwatch hrows)⟩

/-! ## Invariants of the transition system: theorems -/

/-- C21: in every state reached by any sequence of events (show, openWatch,
closeWatch, popstate, search, upload, card click, delete continuation, like,
sign-out and the other session events), a non-null watching id implies that the
current page is `watch`. This holds from the declared initial state, from any
state without an overlay whose catalog ids are non-empty, and from the state
`init` leaves when the remote listing has non-empty ids. -/
theorem watching_implies_watch_page (toLowerCase : String → String) (actions : List Action) :
    (∀ favorites likes,
        (run toLowerCase (initialState favorites likes) actions).watchingId ≠ none →
        (run toLowerCase (initialState favorites likes) actions).currentPage = "watch") ∧
      (∀ s0 : State, s0.watchingId = none → (∀ v ∈ s0.videos, v.id ≠ "") →
        (run toLowerCase s0 actions).watchingId ≠ none →
        (run toLowerCase s0 actions).currentPage = "watch") ∧
      (∀ (toLocaleDateString : String → String) favorites likes gw q s0,
        init toLocaleDateString favorites likes gw q = .ok s0 →
        (∀ a rows, gw.videos = .fulfilled a → a.data = some rows → ∀ r ∈ rows, r.id ≠ "") →
        (run toLowerCase s0 actions).watchingId ≠ none →
        (run toLowerCase s0 actions).currentPage = "watch") := by
  have key : ∀ s0, WatchInv s0 → (run toLowerCase s0 actions).watchingId ≠ none →
      (run toLowerCase s0 actions).currentPage = "watch" := by
    intro s0 h0 hne
    have hinv := run_watchInv toLowerCase actions s0 h0
    cases hw : (run toLowerCase s0 actions).watchingId with
    | none => exact absurd hw hne
    | some id => exact (hinv.2 id hw).2
  refine ⟨?_, ?_, ?_⟩
  · intro favorites likes
    apply key
    refine ⟨?_, ?_⟩
    · intro v hv; cases hv
    · intro id hid; cases hid
  · intro s0 hw hids
    apply key
    refine ⟨hids, ?_⟩
    intro id hid
    rw [hw] at hid
    cases hid
  · intro toLocaleDateString favorites likes gw q s0 hinit hrows
    exact key s0 ((init_invariants toLocaleDateString favorites likes gw q s0 hinit).2 hrows)

/-- C22: in every state reached by any sequence of events (checkSession,
sign-in, registration, sign-out, session-change notifications and all the
navigation events), whatever the gateway answers, a `null` user comes with the
admin flag `false`. This holds from the declared initial state, from any state
that satisfies it, and from the state `init` leaves. -/
theorem admin_only_if_signed_in (toLowerCase : String → String) (actions : List Action) :
    (∀ favorites likes,
        (run toLowerCase (initialState favorites likes) actions).user = none →
        (run toLowerCase (initialState favorites likes) actions).isAdmin = false) ∧
      (∀ s0 : State, (s0.user = none → s0.isAdmin = false) →
        (run toLowerCase s0 actions).user = none →
        (run toLowerCase s0 actions).isAdmin = false) ∧
      (∀ (toLocaleDateString : String → String) favorites likes gw q s0,
        init toLocaleDateString favorites likes gw q = .ok s0 →
        (run toLowerCase s0 actions).user = none →
        (run toLowerCase s0 actions).isAdmin = false) := by
  refine ⟨?_, ?_, ?_⟩
  · intro favorites likes
    exact run_adminInv toLowerCase actions (initialState favorites likes) (fun _ => rfl)
  · intro s0 h0
    exact run_adminInv toLowerCase actions s0 h0
  · intro toLocaleDateString favorites likes gw q s0 hinit
    exact run_adminInv toLowerCase actions s0
      (init_invariants toLocaleDateString favorites likes gw q s0 hinit).1

/-- Witness of C21: after an upload and a click on the uploaded video the
watching id is set and the page is `watch`; the same from the two-video
catalog. -/
theorem watching_implies_watch_page_witness :
    (run asciiLower (initialState [] []) sampleWatchRun).watchingId ≠ none ∧
      (run asciiLower (initialState [] []) sampleWatchRun).currentPage = "watch" ∧
      sampleCatDog.watchingId = none ∧ (∀ v ∈ sampleCatDog.videos, v.id ≠ "") ∧
      (run asciiLower sampleCatDog [.openWatch "a" true, .search "dog", .openWatch "b" true]
        ).currentPage = "watch" :=
  ⟨by decide,
    (watching_implies_watch_page asciiLower sampleWatchRun).1 [] [] (by decide),
    rfl, by decide,
    (watching_implies_watch_page asciiLower
      [.openWatch "a" true, .search "dog", .openWatch "b" true]).2.1 sampleCatDog rfl
      (by decide) (by decide)⟩

/-- Witness of C22: after registering as `admin_bob` and signing out, nobody is
signed in and the admin flag is off. -/
theorem admin_only_if_signed_in_witness :
    (run asciiLower (initialState [] []) sampleSessionRun).user = none ∧
      (run asciiLower (initialState [] []) sampleSessionRun).isAdmin = false ∧
      (run asciiLower (initialState [] []) (sampleSessionRun.take 2)).isAdmin = true :=
  ⟨by decide,
    (admin_only_if_signed_in asciiLower sampleSessionRun).1 [] [] (by decide),
    by decide⟩

end StreamVault
